import Mathlib

/-!
# fs_readers: FAT16 reader (`src/main.cpp`, `inc/fat_structs.h`)

A shallow embedding of the decoding functions of the FAT16 reader and of the
root-directory scan of `main`, followed by theorems about them.

Conventions of the embedding.

* Bytes, characters and machine integers are natural numbers; a store into a
  narrower object (a `uint16_t` variable, a bit-field of width `w`) is written
  as an explicit `% 2 ^ w`.
* A `std::string` or a `char` buffer is a list of byte values.
* The file image (`fs_bin`) is a list of bytes.  A read outside of it, and an
  `int` multiplication whose result does not fit 32 signed bits, have no
  defined behaviour in C++; the embedding gives them the value `none`, and
  `none` to everything computed from them.  The program itself has no error
  path after argument parsing: every defined run ends with `EXIT_SUCCESS`.
* Multi-byte fields of the packed structures are read little-endian, as on
  the x86 hosts the program is written for.
-/

namespace FatReader

/-! ## Packed dates and times (`main.cpp`, lines 12-38) -/

/-- The three bit-fields of `struct fat_date_t`: `day : 5`, `month : 4`, `year : 7`. -/
structure fat_date_t where
  day : Nat
  month : Nat
  year : Nat
  deriving DecidableEq, Repr

/-- The three bit-fields of `struct fat_time_t`: `sec : 5`, `min : 6`, `hour : 5`. -/
structure fat_time_t where
  sec : Nat
  min : Nat
  hour : Nat
  deriving DecidableEq, Repr

/-- Constructor `fat_date_t(uint16_t date_int)`. -/
def fat_date_t.ctor (date_int : Nat) : fat_date_t :=
  let day := (date_int &&& 0b11111) % 2 ^ 5
  let date_int := (date_int >>> 5) % 2 ^ 16
  let month := (date_int &&& 0b1111) % 2 ^ 4
  let date_int := (date_int >>> 4) % 2 ^ 16
  let year := date_int % 2 ^ 7
  { day := day, month := month, year := year }

/-- Constructor `fat_time_t(uint16_t time_int)`.  The product `(time_int & 0x1F) * 2`
is stored into the 5-bit field `sec`. -/
def fat_time_t.ctor (time_int : Nat) : fat_time_t :=
  let sec := ((time_int &&& 0b00011111) * 2) % 2 ^ 5
  let time_int := (time_int >>> 5) % 2 ^ 16
  let min := (time_int &&& 0b00111111) % 2 ^ 6
  let time_int := (time_int >>> 6) % 2 ^ 16
  let hour := time_int % 2 ^ 5
  { sec := sec, min := min, hour := hour }

/-- Byte values of the characters of a string literal. -/
def bytesOf (s : String) : List Nat := s.toList.map Char.toNat

/-- Decimal digits of `v` as characters, for the `d` conversions of `boost::format`. -/
def decimal (v : Nat) : List Nat := (Nat.toDigits 10 v).map Char.toNat

/-- A `%<width>d` / `%0<width>d` conversion: `v` in decimal, right-aligned in
`width` columns and padded on the left with `fill`. -/
def fmt_d (width fill v : Nat) : List Nat :=
  List.replicate (width - (decimal v).length) fill ++ decimal v

/-- The six values `get_dir_entry_date_time` hands to the formatter. -/
structure date_time_fields where
  year : Nat
  month : Nat
  day : Nat
  hour : Nat
  min : Nat
  sec : Nat
  deriving DecidableEq, Repr

/-- The arguments of the format expression of `get_dir_entry_date_time`, in
order: `date.year + 1980u`, `date.month + 1u`, `date.day + 1u`, `time.hour`,
`time.min`, `time.sec`. -/
def date_time_args (date_int time_int : Nat) : date_time_fields :=
  let date := fat_date_t.ctor date_int
  let time := fat_time_t.ctor time_int
  { year := date.year + 1980, month := date.month + 1, day := date.day + 1,
    hour := time.hour, min := time.min, sec := time.sec }

/-- The string built by `get_dir_entry_date_time`, format
`"%4d-%02d-%02d %02d:%02d:%02d"` (`0x20` space, `0x30` zero, `0x2D` dash,
`0x3A` colon). -/
def get_dir_entry_date_time (date_int time_int : Nat) : List Nat :=
  let a := date_time_args date_int time_int
  fmt_d 4 0x20 a.year ++ [0x2D] ++ fmt_d 2 0x30 a.month ++ [0x2D] ++ fmt_d 2 0x30 a.day
    ++ [0x20] ++ fmt_d 2 0x30 a.hour ++ [0x3A] ++ fmt_d 2 0x30 a.min ++ [0x3A]
    ++ fmt_d 2 0x30 a.sec

/-- Repacking of the raw date bit-fields: day in bits 0-4, month in bits 5-8,
year in bits 9-15. -/
def repack_date (x : fat_date_t) : Nat :=
  x.day ||| (x.month <<< 5) ||| (x.year <<< 9)

/-- Repacking of the time fields: the 2-second count `sec / 2` in bits 0-4,
minutes in bits 5-10, hours in bits 11-15. -/
def repack_time (x : fat_time_t) : Nat :=
  (x.sec / 2) ||| (x.min <<< 5) ||| (x.hour <<< 11)

/-! ## Names, attributes (`main.cpp`, lines 59-110) -/

/-- Scan of `strchr` over the bytes still ahead, `i` being the index of the
first of them: the index of the first byte equal to `c`, or `none` when the
terminating NUL comes first. -/
def strchr_scan (c : Nat) : List Nat → Nat → Option Nat
  | [], _ => none
  | b :: rest, i =>
    if b = c then some i else if b = 0 then none else strchr_scan c rest (i + 1)

/-- The call `strchr(buf + start, c)` on a NUL-terminated buffer; the result is
an index into `buf` (`none` for the null pointer). -/
def strchr (buf : List Nat) (start c : Nat) : Option Nat :=
  strchr_scan c (buf.drop start) start

/-- The C string that starts at `buf + start`: the bytes before the first NUL. -/
def c_str (buf : List Nat) (start : Nat) : List Nat :=
  (buf.drop start).takeWhile (fun b => b ≠ 0)

/-- Function `get_dir_entry_name(const char entry_name[11])`.
`0x20` is the space and `0x2E` the dot. -/
def get_dir_entry_name (entry_name : List Nat) : List Nat :=
  if entry_name.getD 0 0 = 0 then []
  else
    let res := entry_name.take 11 ++ [0]
    let ext := 8
    let res := if res.getD 0 0 = 0x05 then res.set 0 0xE5 else res
    let step1 : List Nat × Bool :=
      match strchr res ext 0x20 with
      | some tmp_p => (res.set tmp_p 0, !(tmp_p == ext))
      | none => (res, true)
    let res := step1.1
    let has_ext := step1.2
    let res :=
      match strchr res 0 0x20 with
      | some tmp_p => res.set tmp_p 0
      | none => res
    if has_ext then c_str res 0 ++ [0x2E] ++ c_str res ext
    else c_str res 0

/-- Function `get_dir_entry_identifier(const uint16_t i)`; `010u` is octal, the
results are the characters `/` (0x2F) and space (0x20). -/
def get_dir_entry_identifier (i : Nat) : Nat :=
  if i &&& 0o10 ≠ 0 then 0x2F else 0x20

/-- The array `masks` of `get_dir_entry_status`. -/
def masks : List Nat := [0x01, 0x02, 0x04, 0x08, 0x10, 0x20]

/-- Function `get_dir_entry_status(uint8_t attributes)`: the buffer starts as
`"rhsvda"` with its terminating NUL, the loop runs `i = 0 .. 5`, and the
returned string is the C string of the buffer.  `0x2D` is the dash. -/
def get_dir_entry_status (attributes : Nat) : List Nat :=
  let res := (List.range 6).foldl
    (fun res i => if attributes &&& masks.getD i 0 = 0 then res.set i 0x2D else res)
    (bytesOf "rhsvda" ++ [0])
  c_str res 0

/-! ## Packed structures (`fat_structs.h`) and reads from the image -/

/-- One byte of the file image. -/
abbrev Byte := Fin 256

/-- Members of `struct fat_boot`, in declaration order, with their sizes in bytes. -/
def fat_boot : List (String × Nat) :=
  [("jump", 3), ("oemId", 8), ("bytesPerSector", 2), ("sectorsPerCluster", 1),
   ("reservedSectorCount", 2), ("fatCount", 1), ("rootDirEntryCount", 2),
   ("totalSectors16", 2), ("mediaType", 1), ("sectorsPerFat16", 2),
   ("sectorsPerTrack", 2), ("headCount", 2), ("hidddenSectors", 4),
   ("totalSectors32", 4), ("driveNumber", 1), ("reserved1", 1), ("bootSignature", 1),
   ("volumeSerialNumber", 4), ("volumeLabel", 11), ("fileSystemType", 8),
   ("bootCode", 448), ("bootSectorSig0", 1), ("bootSectorSig1", 1)]

/-- Members of `struct directoryEntry` (`dir_t`), in declaration order, with
their sizes in bytes. -/
def directoryEntry : List (String × Nat) :=
  [("name", 11), ("attributes", 1), ("reservedNT", 1), ("creationTimeTenths", 1),
   ("creationTime", 2), ("creationDate", 2), ("lastAccessDate", 2),
   ("firstClusterHigh", 2), ("lastWriteTime", 2), ("lastWriteDate", 2),
   ("firstClusterLow", 2), ("fileSize", 4)]

/-- Size of a structure declared `__attribute__((packed))`: the members follow
one another without padding. -/
def sizeof_packed (members : List (String × Nat)) : Nat :=
  (members.map Prod.snd).sum

/-- Offset of member `m` in a packed structure: the sizes of the members
declared before it. -/
def offsetof_packed : List (String × Nat) → String → Nat
  | [], _ => 0
  | (name, size) :: rest, m => if name = m then 0 else size + offsetof_packed rest m

/-- Read of a `uint8_t` at byte offset `addr` of the image. -/
def read_u8 (mem : List Byte) (addr : Nat) : Option Nat :=
  (mem[addr]?).map Fin.val

/-- Read of a little-endian `uint16_t` at byte offset `addr`. -/
def read_u16 (mem : List Byte) (addr : Nat) : Option Nat :=
  match read_u8 mem addr, read_u8 mem (addr + 1) with
  | some b0, some b1 => some (b0 + b1 * 2 ^ 8)
  | _, _ => none

/-- Read of a little-endian `uint32_t` at byte offset `addr`. -/
def read_u32 (mem : List Byte) (addr : Nat) : Option Nat :=
  match read_u16 mem addr, read_u16 mem (addr + 2) with
  | some lo, some hi => some (lo + hi * 2 ^ 16)
  | _, _ => none

/-- Read of `count` consecutive bytes starting at `addr`. -/
def read_bytes (mem : List Byte) (addr : Nat) : Nat → Option (List Nat)
  | 0 => some []
  | count + 1 =>
    match read_u8 mem addr, read_bytes mem (addr + 1) count with
    | some b, some rest => some (b :: rest)
    | _, _ => none

/-- Largest value of a 32-bit `int`. -/
def INT_MAX : Nat := 2 ^ 31 - 1

/-- Product of two non-negative `int` operands (promoted `uint8_t` and
`uint16_t` values): defined when it fits an `int`. -/
def int_mul (a b : Nat) : Option Nat :=
  if a * b ≤ INT_MAX then some (a * b) else none

/-! ## Boot record and root directory (`main.cpp`, lines 40-57 and 158-185) -/

/-- The values printed by `print_fat_boot_record_info`, one per output line.
The FAT size in bytes is an `int` product of two `uint16_t` members; it is
`none` when that product does not fit an `int`. -/
structure boot_record_info where
  sector_size : Nat
  sectors_per_cluster : Nat
  fat_copy_number : Nat
  fat_copy_size_in_bytes : Option Nat
  fat_copy_size_in_sectors : Nat
  root_directory_size : Nat
  root_directory_entry_count : Nat
  reserved_sectors_count : Nat
  check_signature : List Nat
  deriving DecidableEq, Repr

/-- Function `print_fat_boot_record_info(fs_boot_sector)`, the boot sector
being at offset 0 of the image.  The second signature byte is read only when
the first one matches (`&&`). -/
def print_fat_boot_record_info (mem : List Byte) : Option boot_record_info := do
  let bytesPerSector ← read_u16 mem (offsetof_packed fat_boot "bytesPerSector")
  let sectorsPerCluster ← read_u8 mem (offsetof_packed fat_boot "sectorsPerCluster")
  let fatCount ← read_u8 mem (offsetof_packed fat_boot "fatCount")
  let sectorsPerFat16 ← read_u16 mem (offsetof_packed fat_boot "sectorsPerFat16")
  let rootDirEntryCount ← read_u16 mem (offsetof_packed fat_boot "rootDirEntryCount")
  let reservedSectorCount ← read_u16 mem (offsetof_packed fat_boot "reservedSectorCount")
  let bootSectorSig0 ← read_u8 mem (offsetof_packed fat_boot "bootSectorSig0")
  let sig_ok ←
    if bootSectorSig0 = 0x55 then
      (read_u8 mem (offsetof_packed fat_boot "bootSectorSig1")).map (fun sig1 => sig1 == 0xAA)
    else some false
  some
    { sector_size := bytesPerSector
      sectors_per_cluster := sectorsPerCluster
      fat_copy_number := fatCount
      fat_copy_size_in_bytes := int_mul sectorsPerFat16 bytesPerSector
      fat_copy_size_in_sectors := sectorsPerFat16
      root_directory_size := rootDirEntryCount
      root_directory_entry_count := rootDirEntryCount
      reserved_sectors_count := reservedSectorCount
      check_signature := if sig_ok then bytesOf "correct" else bytesOf "incorrect" }

/-- The byte offset, from the start of the image, of the pointer `dir_entry`
initialised at lines 167-169:
`data_p + 512u + fatCount * sectorsPerFat16 * bytesPerSector`, the product
being evaluated in `int`. -/
def root_dir_offset (fatCount sectorsPerFat16 bytesPerSector : Nat) : Option Nat := do
  let p ← int_mul fatCount sectorsPerFat16
  let q ← int_mul p bytesPerSector
  some (512 + q)

/-- The seven values of one output line of the root-directory table. -/
structure dir_record where
  status : List Nat
  size : Nat
  last_modified : List Nat
  cluster : Nat
  block : Nat
  file_name : List Nat
  identifier : Nat
  deriving DecidableEq, Repr

/-- The output statement of the loop body (lines 176-182) for the slot at byte
offset `dir_entry`. -/
def print_dir_entry (mem : List Byte) (dir_entry : Nat) : Option dir_record := do
  let attributes ← read_u8 mem (dir_entry + offsetof_packed directoryEntry "attributes")
  let fileSize ← read_u32 mem (dir_entry + offsetof_packed directoryEntry "fileSize")
  let lastWriteDate ← read_u16 mem (dir_entry + offsetof_packed directoryEntry "lastWriteDate")
  let lastWriteTime ← read_u16 mem (dir_entry + offsetof_packed directoryEntry "lastWriteTime")
  let firstClusterLow ←
    read_u16 mem (dir_entry + offsetof_packed directoryEntry "firstClusterLow")
  let sectorsPerCluster ← read_u8 mem (offsetof_packed fat_boot "sectorsPerCluster")
  let block ← int_mul firstClusterLow sectorsPerCluster
  let name ← read_bytes mem (dir_entry + offsetof_packed directoryEntry "name") 11
  some
    { status := get_dir_entry_status attributes
      size := fileSize
      last_modified := get_dir_entry_date_time lastWriteDate lastWriteTime
      cluster := firstClusterLow
      block := block
      file_name := get_dir_entry_name name
      identifier := get_dir_entry_identifier attributes }

/-- The loop of lines 174-184 with `remaining` iterations still to run and the
pointer `dir_entry` at the given byte offset; the result lists the lines
printed, in order. -/
def scan_root_dir (mem : List Byte) : Nat → Nat → Option (List dir_record)
  | 0, _ => some []
  | remaining + 1, dir_entry =>
    match read_u8 mem (dir_entry + offsetof_packed directoryEntry "name") with
    | none => none
    | some name0 =>
      if name0 ≠ 0xE5 ∧ name0 ≠ 0x00 then
        match print_dir_entry mem dir_entry,
            scan_root_dir mem remaining (dir_entry + sizeof_packed directoryEntry) with
        | some line, some rest => some (line :: rest)
        | _, _ => none
      else scan_root_dir mem remaining (dir_entry + sizeof_packed directoryEntry)

/-- Function `main` from line 158 on, `fs_bin` being the content of the file:
the boot record values and the lines of the root-directory table. -/
def main (fs_bin : List Byte) : Option (boot_record_info × List dir_record) := do
  let info ← print_fat_boot_record_info fs_bin
  let fatCount ← read_u8 fs_bin (offsetof_packed fat_boot "fatCount")
  let sectorsPerFat16 ← read_u16 fs_bin (offsetof_packed fat_boot "sectorsPerFat16")
  let bytesPerSector ← read_u16 fs_bin (offsetof_packed fat_boot "bytesPerSector")
  let dir_entry ← root_dir_offset fatCount sectorsPerFat16 bytesPerSector
  let rootDirEntryCount ← read_u16 fs_bin (offsetof_packed fat_boot "rootDirEntryCount")
  let lines ← scan_root_dir fs_bin rootDirEntryCount dir_entry
  some (info, lines)

/-! ## Reference descriptions used by the statements -/

/-- The name the 8.3 rule assigns to an 11-byte field whose byte 0 is not NUL:
`B` when `E` is empty and `B.E` otherwise, `B` being the part of bytes 0..7
before the first space (byte 0 read as `0xE5` when it is `0x05`) and `E` the
part of bytes 8..10 before the first space. -/
def name_8_3 (field : List Nat) : List Nat :=
  let first := if field.getD 0 0 = 0x05 then 0xE5 else field.getD 0 0
  let B := (first :: (field.take 8).drop 1).takeWhile (fun b => b ≠ 0x20)
  let E := ((field.drop 8).take 3).takeWhile (fun b => b ≠ 0x20)
  if E = [] then B else B ++ [0x2E] ++ E

/-- The bytes of `l` before its first space or NUL byte. -/
def before_space_or_nul (l : List Nat) : List Nat :=
  l.takeWhile (fun b => b ≠ 0x20 ∧ b ≠ 0)

/-- No byte of `l` is a space or a NUL. -/
def no_space_or_nul (l : List Nat) : Bool :=
  l.all (fun b => b ≠ 0x20 ∧ b ≠ 0)

/-- The buffer `l` after `if ((tmp_p = strchr(l, ' '))) *tmp_p = '\0';`. -/
def cut_at_space (l : List Nat) : List Nat :=
  match strchr_scan 0x20 l 0 with
  | some k => l.set k 0
  | none => l

/-- The part of `get_dir_entry_name` that follows the preparation of the
buffer `res` (lines 70-86). -/
def name_from_buffer (res : List Nat) : List Nat :=
  let ext := 8
  let step1 : List Nat × Bool :=
    match strchr res ext 0x20 with
    | some tmp_p => (res.set tmp_p 0, !(tmp_p == ext))
    | none => (res, true)
  let res := step1.1
  let has_ext := step1.2
  let res :=
    match strchr res 0 0x20 with
    | some tmp_p => res.set tmp_p 0
    | none => res
  if has_ext then c_str res 0 ++ [0x2E] ++ c_str res ext
  else c_str res 0

/-- Bytes 0..7 of a name field, byte 0 being read as `0xE5` when it is `0x05`. -/
def name_base (field : List Nat) : List Nat :=
  if (field.take 8).getD 0 0 = 0x05 then (field.take 8).set 0 0xE5 else field.take 8

/-- Bytes 8..10 of a name field. -/
def name_ext (field : List Nat) : List Nat :=
  (field.drop 8).take 3

/-- Bytes 0..7 of a name field before the first space among them. -/
def base_before_space (field : List Nat) : List Nat :=
  (field.take 8).takeWhile (fun b => b ≠ 0x20)

/-- Bytes 8..10 of a name field before the first space among them. -/
def ext_before_space (field : List Nat) : List Nat :=
  ((field.drop 8).take 3).takeWhile (fun b => b ≠ 0x20)

/-- The trimmed base alone when byte 8 is a space, and otherwise the trimmed
base, a dot and the trimmed extension, each half cut at its own first space. -/
def trimmed_name (field : List Nat) : List Nat :=
  if field.getD 8 0 = 0x20 then base_before_space field
  else base_before_space field ++ [0x2E] ++ ext_before_space field

/-- The 32 bytes of the directory slot at byte offset `addr` of the image. -/
def slot_at (mem : List Byte) (addr : Nat) : List Nat :=
  ((mem.drop addr).take 32).map Fin.val

/-- The `n` consecutive 32-byte slots that start at byte offset `start`. -/
def slots (mem : List Byte) (start n : Nat) : List (List Nat) :=
  (List.range n).map (fun i => slot_at mem (start + 32 * i))

/-- A slot is live when its first name byte is neither `0x00` nor `0xE5`. -/
def live (s : List Nat) : Bool :=
  s.getD 0 0 != 0x00 && s.getD 0 0 != 0xE5

/-- Little-endian 16-bit value at bytes `i`, `i + 1` of a slot. -/
def le16 (s : List Nat) (i : Nat) : Nat :=
  s.getD i 0 + s.getD (i + 1) 0 * 2 ^ 8

/-- Little-endian 32-bit value at bytes `i .. i + 3` of a slot. -/
def le32 (s : List Nat) (i : Nat) : Nat :=
  s.getD i 0 + s.getD (i + 1) 0 * 2 ^ 8 + s.getD (i + 2) 0 * 2 ^ 16 + s.getD (i + 3) 0 * 2 ^ 24

/-- The record of a slot, as a function of its 32 bytes and of
`sectorsPerCluster`: name from bytes 0..10, status and kind character from
byte 11, last-write time from bytes 22..23 and date from bytes 24..25, first
cluster from bytes 26..27, size from bytes 28..31. -/
def slot_record (s : List Nat) (sectorsPerCluster : Nat) : dir_record :=
  { status := get_dir_entry_status (s.getD 11 0)
    size := le32 s 28
    last_modified := get_dir_entry_date_time (le16 s 24) (le16 s 22)
    cluster := le16 s 26
    block := le16 s 26 * sectorsPerCluster
    file_name := get_dir_entry_name (s.take 11)
    identifier := get_dir_entry_identifier (s.getD 11 0) }

/-- The value of the boot-sector member `sectorsPerCluster` of an image (0 when
the image is too short to hold it). -/
def sectorsPerCluster_of (mem : List Byte) : Nat :=
  (read_u8 mem (offsetof_packed fat_boot "sectorsPerCluster")).getD 0

/-- The value of the boot-sector member `fatCount` of an image (0 when the
image is too short to hold it). -/
def fatCount_of (mem : List Byte) : Nat :=
  (read_u8 mem (offsetof_packed fat_boot "fatCount")).getD 0

/-- The value of the boot-sector member `sectorsPerFat16` of an image. -/
def sectorsPerFat16_of (mem : List Byte) : Nat :=
  (read_u16 mem (offsetof_packed fat_boot "sectorsPerFat16")).getD 0

/-- The value of the boot-sector member `bytesPerSector` of an image. -/
def bytesPerSector_of (mem : List Byte) : Nat :=
  (read_u16 mem (offsetof_packed fat_boot "bytesPerSector")).getD 0

/-- The value of the boot-sector member `rootDirEntryCount` of an image. -/
def rootDirEntryCount_of (mem : List Byte) : Nat :=
  (read_u16 mem (offsetof_packed fat_boot "rootDirEntryCount")).getD 0

/-- The value of the boot-sector member `reservedSectorCount` of an image. -/
def reservedSectorCount_of (mem : List Byte) : Nat :=
  (read_u16 mem (offsetof_packed fat_boot "reservedSectorCount")).getD 0

/-- The value of the boot-sector member `bootSectorSig0` of an image. -/
def bootSectorSig0_of (mem : List Byte) : Nat :=
  (read_u8 mem (offsetof_packed fat_boot "bootSectorSig0")).getD 0

/-- The value of the boot-sector member `bootSectorSig1` of an image. -/
def bootSectorSig1_of (mem : List Byte) : Nat :=
  (read_u8 mem (offsetof_packed fat_boot "bootSectorSig1")).getD 0

/-- The image `mem` with its bytes 510 and 511 replaced by `x` and `y`. -/
def with_signature (mem : List Byte) (x y : Byte) : List Byte :=
  (mem.set 510 x).set 511 y

/-- The boot record values with the signature line blanked. -/
def without_signature (info : boot_record_info) : boot_record_info :=
  { info with check_signature := [] }

/-- The output of `main` with the signature line blanked. -/
def output_without_signature (out : boot_record_info × List dir_record) :
    boot_record_info × List dir_record :=
  (without_signature out.1, out.2)

/-- The part of `main` that follows the call of `print_fat_boot_record_info`
(lines 167-184): the lines of the root-directory table. -/
def root_dir_lines (fs_bin : List Byte) : Option (List dir_record) := do
  let fatCount ← read_u8 fs_bin (offsetof_packed fat_boot "fatCount")
  let sectorsPerFat16 ← read_u16 fs_bin (offsetof_packed fat_boot "sectorsPerFat16")
  let bytesPerSector ← read_u16 fs_bin (offsetof_packed fat_boot "bytesPerSector")
  let dir_entry ← root_dir_offset fatCount sectorsPerFat16 bytesPerSector
  let rootDirEntryCount ← read_u16 fs_bin (offsetof_packed fat_boot "rootDirEntryCount")
  scan_root_dir fs_bin rootDirEntryCount dir_entry

/-! ## Concrete images -/

/-- Little-endian bytes of `v`, `count` of them. -/
def le_bytes (v : Nat) : Nat → List Byte
  | 0 => []
  | count + 1 => Fin.ofNat (v % 256) :: le_bytes (v / 256) count

/-- A block of `count` zero bytes. -/
def zeros (count : Nat) : List Byte := List.replicate count 0

/-- The bytes of a string literal as image bytes. -/
def image_bytes (s : String) : List Byte := (bytesOf s).map Fin.ofNat

/-- A boot sector holding the given geometry, zero elsewhere, signed `55 AA`. -/
def boot_sector_image (bytesPerSector sectorsPerCluster reservedSectorCount fatCount
    rootDirEntryCount sectorsPerFat16 : Nat) : List Byte :=
  zeros 11 ++ le_bytes bytesPerSector 2 ++ le_bytes sectorsPerCluster 1
    ++ le_bytes reservedSectorCount 2 ++ le_bytes fatCount 1 ++ le_bytes rootDirEntryCount 2
    ++ zeros 3 ++ le_bytes sectorsPerFat16 2 ++ zeros 486 ++ [0x55, 0xAA]

/-- A directory slot with the given name, attributes, last-write time and
date, first cluster and size, zero elsewhere. -/
def slot_image (name : List Byte) (attributes lastWriteTime lastWriteDate firstClusterLow
    fileSize : Nat) : List Byte :=
  name ++ le_bytes attributes 1 ++ zeros 10 ++ le_bytes lastWriteTime 2
    ++ le_bytes lastWriteDate 2 ++ le_bytes firstClusterLow 2 ++ le_bytes fileSize 4

/-- Boot sector and FAT area of the end-to-end scenario: 512-byte sectors, 4
sectors per cluster, 2 FATs of 4 sectors, 16 root entries. -/
def hello_head : List Byte :=
  boot_sector_image 512 4 1 2 16 4 ++ zeros (2 * 4 * 512)

/-- The directory slot of `HELLO.TXT`: archive bit, written 2021-06-15 10:30:00,
first cluster 5, 1024 bytes. -/
def hello_slot : List Byte :=
  slot_image (image_bytes "HELLO   TXT") 0x20 21440 21199 5 1024

/-- The root directory of the end-to-end scenario: the slot of `HELLO.TXT`
followed by 15 free slots. -/
def hello_root_dir : List Byte :=
  hello_slot ++ zeros (15 * 32)

/-- The 64 KB volume of the end-to-end scenario: boot sector, FATs, root
directory, and a data area of zero bytes. -/
def hello_volume : List Byte :=
  hello_head ++ (hello_root_dir ++ zeros (65536 - 5120))

/-- The volume of the end-to-end scenario cut 31 bytes short: the buffer ends
after the first byte of the sixteenth root-directory slot. -/
def truncated_hello_volume : List Byte :=
  hello_head ++ ((hello_slot ++ zeros (14 * 32)) ++ zeros 1)

/-- Boot sector and FAT area of a volume with 512-byte sectors, one sector per
cluster, 2 FATs of one sector and 3 root entries. -/
def three_slot_head : List Byte :=
  boot_sector_image 512 1 1 2 3 1 ++ zeros (2 * 1 * 512)

/-- A root directory of three slots: a deleted slot, a free slot, then `NOTE.MD`. -/
def three_slot_root_dir : List Byte :=
  slot_image (0xE5 :: image_bytes "LD     TXT") 0x20 0 0 2 10
    ++ zeros 32
    ++ slot_image (image_bytes "NOTE    MD ") 0x01 21440 21199 3 77

/-- The three-slot volume. -/
def three_slot_volume : List Byte :=
  three_slot_head ++ three_slot_root_dir

/-! ## Arithmetic of the bit operations -/

theorem and_mask_eq_mod (x n : Nat) : x &&& (2 ^ n - 1) = x % 2 ^ n :=
  Nat.and_pow_two_sub_one_eq_mod x n

theorem or_shift_eq_add (lo hi n : Nat) (h : lo < 2 ^ n) : lo ||| (hi <<< n) = lo + hi * 2 ^ n := by
  rw [Nat.shiftLeft_eq, Nat.or_comm, Nat.mul_comm hi, ← Nat.mul_add_lt_is_or h, Nat.add_comm]

theorem fat_date_ctor_eq (d : Nat) (h : d < 2 ^ 16) :
    fat_date_t.ctor d = { day := d % 32, month := d / 32 % 16, year := d / 512 } := by
  have h5 : d &&& 0b11111 = d % 32 := and_mask_eq_mod d 5
  have h4 : (d / 32) &&& 0b1111 = d / 32 % 16 := and_mask_eq_mod (d / 32) 4
  have hd : d < 65536 := h
  simp only [fat_date_t.ctor, Nat.shiftRight_eq_div_pow]
  have e1 : d / 2 ^ 5 % 2 ^ 16 = d / 32 := by omega
  rw [e1, h5, h4]
  have e2 : d / 32 / 2 ^ 4 % 2 ^ 16 % 2 ^ 7 = d / 512 := by omega
  have e3 : d % 32 % 2 ^ 5 = d % 32 := by omega
  have e4 : d / 32 % 16 % 2 ^ 4 = d / 32 % 16 := by omega
  rw [e2, e3, e4]

theorem fat_time_ctor_eq (t : Nat) (h : t < 2 ^ 16) :
    fat_time_t.ctor t = { sec := t % 32 * 2 % 32, min := t / 32 % 64, hour := t / 2048 } := by
  have h5 : t &&& 0b00011111 = t % 32 := and_mask_eq_mod t 5
  have h6 : (t / 32) &&& 0b00111111 = t / 32 % 64 := and_mask_eq_mod (t / 32) 6
  have ht : t < 65536 := h
  simp only [fat_time_t.ctor, Nat.shiftRight_eq_div_pow]
  have e1 : t / 2 ^ 5 % 2 ^ 16 = t / 32 := by omega
  rw [e1, h5, h6]
  have e2 : t / 32 / 2 ^ 6 % 2 ^ 16 % 2 ^ 5 = t / 2048 := by omega
  have e3 : t % 32 * 2 % 2 ^ 5 = t % 32 * 2 % 32 := by omega
  have e4 : t / 32 % 64 % 2 ^ 6 = t / 32 % 64 := by omega
  rw [e2, e3, e4]

/-! ## Packed time and date fields -/

/-- The time components handed to the formatter for a 16-bit time `t`: minutes
`(t >> 5) & 0x3F`, hours `t >> 11`, and seconds `2 * (t & 0x1F)` reduced
modulo 32 by the 5-bit field `sec`. -/
theorem date_time_args_time (d t : Nat) (ht : t < 2 ^ 16) :
    (date_time_args d t).sec = 2 * (t &&& 0x1F) % 32 ∧
    (date_time_args d t).min = (t >>> 5) &&& 0x3F ∧
    (date_time_args d t).hour = t >>> 11 := by
  have h5 : t &&& 0x1F = t % 32 := and_mask_eq_mod t 5
  have h6 : (t / 32) &&& 0x3F = t / 32 % 64 := and_mask_eq_mod (t / 32) 6
  have ht' : t < 65536 := ht
  simp only [date_time_args, fat_time_ctor_eq t ht, Nat.shiftRight_eq_div_pow]
  have e1 : t / 2 ^ 5 = t / 32 := by norm_num
  rw [e1, h5, h6]
  refine ⟨by omega, rfl, by norm_num⟩

/-- C2: for the packed time 29 (2-second count 29, i.e. 00:00:58) the seconds
handed to the formatter are 26, not `2 * (29 & 0x1F) = 58`, and the string is
`1980-01-01 00:00:26`: the 5-bit field `sec` keeps the doubled count modulo 32. -/
theorem C2_seconds_at_count_29 :
    (fat_time_t.ctor 29).sec = 26 ∧
    (date_time_args 0 29).sec = 26 ∧
    (date_time_args 0 29).min = (29 >>> 5) &&& 0x3F ∧
    (date_time_args 0 29).hour = 29 >>> 11 ∧
    2 * (29 &&& 0x1F) = 58 ∧
    (date_time_args 0 29).sec ≠ 2 * (29 &&& 0x1F) ∧
    get_dir_entry_date_time 0 29 = bytesOf "1980-01-01 00:00:26" := by
  decide

/-- C3: for every 16-bit date `d` the reported day is `(d & 0x1F) + 1`, the
reported month `((d >> 5) & 0xF) + 1` and the reported year `(d >> 9) + 1980`;
the day lies in `[1, 32]`; the field encoding 2021-06-15 is reported as
2021-07-16. -/
theorem C3_date_components_reported :
    (∀ d t : Nat, d < 2 ^ 16 →
      (date_time_args d t).day = (d &&& 0x1F) + 1 ∧
      (date_time_args d t).month = ((d >>> 5) &&& 0xF) + 1 ∧
      (date_time_args d t).year = (d >>> 9) + 1980 ∧
      1 ≤ (date_time_args d t).day ∧ (date_time_args d t).day ≤ 32 ∧
      get_dir_entry_date_time d t =
        fmt_d 4 0x20 ((d >>> 9) + 1980) ++ [0x2D] ++ fmt_d 2 0x30 (((d >>> 5) &&& 0xF) + 1)
          ++ [0x2D] ++ fmt_d 2 0x30 ((d &&& 0x1F) + 1) ++ [0x20]
          ++ fmt_d 2 0x30 (fat_time_t.ctor t).hour ++ [0x3A]
          ++ fmt_d 2 0x30 (fat_time_t.ctor t).min ++ [0x3A]
          ++ fmt_d 2 0x30 (fat_time_t.ctor t).sec) ∧
    repack_date { day := 15, month := 6, year := 2021 - 1980 } = 21199 ∧
    (date_time_args 21199 0).year = 2021 ∧
    (date_time_args 21199 0).month = 7 ∧
    (date_time_args 21199 0).day = 16 ∧
    get_dir_entry_date_time 21199 0 = bytesOf "2021-07-16 00:00:00" := by
  refine ⟨?_, by decide, by decide, by decide, by decide, by decide⟩
  intro d t hd
  have h5 : d &&& 0x1F = d % 32 := and_mask_eq_mod d 5
  have h4 : (d / 32) &&& 0xF = d / 32 % 16 := and_mask_eq_mod (d / 32) 4
  simp only [get_dir_entry_date_time, date_time_args, fat_date_ctor_eq d hd,
    Nat.shiftRight_eq_div_pow]
  rw [show d / 2 ^ 5 = d / 32 by norm_num, show d / 2 ^ 9 = d / 512 by norm_num, h5, h4]
  and_intros <;> first | rfl | trivial | omega

/-- Witness of C3 at the date field of 2021-06-15. -/
theorem C3_date_components_reported_witness :
    (date_time_args 21199 21440).day = (21199 &&& 0x1F) + 1 ∧
    (date_time_args 21199 21440).month = ((21199 >>> 5) &&& 0xF) + 1 ∧
    (date_time_args 21199 21440).year = (21199 >>> 9) + 1980 ∧
    1 ≤ (date_time_args 21199 21440).day ∧ (date_time_args 21199 21440).day ≤ 32 :=
  have h := C3_date_components_reported.1 21199 21440 (by decide)
  ⟨h.1, h.2.1, h.2.2.1, h.2.2.2.1, h.2.2.2.2.1⟩

/-- Repacking `sec / 2`, `min` and `hour` of `fat_time_t` gives the packed time
with bit 4 cleared: `sec` keeps only 5 bits of the doubled 2-second count. -/
theorem repack_time_ctor (t : Nat) (ht : t < 2 ^ 16) :
    repack_time (fat_time_t.ctor t) = t - (t &&& 0x10) := by
  have ht' : t < 65536 := ht
  have hbit : t &&& 0x10 = t / 16 % 2 * 16 := by
    have h1 : t &&& 0x10 = 2 ^ 4 * (t / 2 ^ 4 % 2) := by
      rw [show (0x10 : Nat) = 2 ^ 4 by norm_num, Nat.and_two_pow, Nat.testBit_to_div_mod]
      rcases Nat.mod_two_eq_zero_or_one (t / 2 ^ 4) with h | h <;> rw [h] <;> rfl
    rw [h1]; norm_num; ring
  rw [fat_time_ctor_eq t ht, repack_time, hbit]
  show (t % 32 * 2 % 32 / 2 ||| (t / 32 % 64) <<< 5) ||| (t / 2048) <<< 11 = _
  rw [or_shift_eq_add _ _ 5 (by omega), or_shift_eq_add _ _ 11 (by omega)]
  omega

/-- C9: the packed time 16 (2-second count 16, i.e. 00:00:32) is held by
`fat_time_t` as `sec = 0`, `min = 0`, `hour = 0`, and repacking `sec / 2`,
`min`, `hour` gives 0, not 16. -/
theorem C9_time_repack_at_16 :
    fat_time_t.ctor 16 = { sec := 0, min := 0, hour := 0 } ∧
    repack_time (fat_time_t.ctor 16) = 0 ∧
    repack_time (fat_time_t.ctor 16) ≠ 16 := by
  decide

/-- C10: for every 16-bit date `d`, repacking the raw fields of `fat_date_t`
gives `d` back, and the fields satisfy `day < 32`, `month < 16`, `year < 128`. -/
theorem C10_date_repack_roundtrip (d : Nat) (hd : d < 2 ^ 16) :
    repack_date (fat_date_t.ctor d) = d ∧
    (fat_date_t.ctor d).day < 32 ∧ (fat_date_t.ctor d).month < 16 ∧
    (fat_date_t.ctor d).year < 128 := by
  have hd' : d < 65536 := hd
  rw [fat_date_ctor_eq d hd, repack_date]
  refine ⟨?_, ?_, ?_, ?_⟩
  · show (d % 32 ||| (d / 32 % 16) <<< 5) ||| (d / 512) <<< 9 = d
    rw [or_shift_eq_add _ _ 5 (by omega), or_shift_eq_add _ _ 9 (by omega)]
    omega
  · show d % 32 < 32
    omega
  · show d / 32 % 16 < 16
    omega
  · show d / 512 < 128
    omega

/-- Witness of C10 at the date field of 2021-06-15. -/
theorem C10_date_repack_roundtrip_witness :
    repack_date (fat_date_t.ctor 21199) = 21199 ∧
    (fat_date_t.ctor 21199).day < 32 ∧ (fat_date_t.ctor 21199).month < 16 ∧
    (fat_date_t.ctor 21199).year < 128 :=
  C10_date_repack_roundtrip 21199 (by decide)

/-! ## Attribute status string -/

theorem and_two_pow_eq_zero_iff (a i : Nat) : a &&& 2 ^ i = 0 ↔ a.testBit i = false := by
  rw [Nat.and_two_pow]
  cases a.testBit i <;> simp

theorem get_dir_entry_status_eq (a : Nat) :
    get_dir_entry_status a =
      [if a.testBit 0 then 0x72 else 0x2D, if a.testBit 1 then 0x68 else 0x2D,
       if a.testBit 2 then 0x73 else 0x2D, if a.testBit 3 then 0x76 else 0x2D,
       if a.testBit 4 then 0x64 else 0x2D, if a.testBit 5 then 0x61 else 0x2D] := by
  have hb : bytesOf "rhsvda" = [0x72, 0x68, 0x73, 0x76, 0x64, 0x61] := by decide
  have hr : List.range 6 = [0, 1, 2, 3, 4, 5] := by decide
  have m0 : a &&& 0x01 = 0 ↔ a.testBit 0 = false := and_two_pow_eq_zero_iff a 0
  have m1 : a &&& 0x02 = 0 ↔ a.testBit 1 = false := and_two_pow_eq_zero_iff a 1
  have m2 : a &&& 0x04 = 0 ↔ a.testBit 2 = false := and_two_pow_eq_zero_iff a 2
  have m3 : a &&& 0x08 = 0 ↔ a.testBit 3 = false := and_two_pow_eq_zero_iff a 3
  have m4 : a &&& 0x10 = 0 ↔ a.testBit 4 = false := and_two_pow_eq_zero_iff a 4
  have m5 : a &&& 0x20 = 0 ↔ a.testBit 5 = false := and_two_pow_eq_zero_iff a 5
  simp only [get_dir_entry_status, hb, hr, masks, List.foldl, List.getD_cons_zero,
    List.getD_cons_succ, m0, m1, m2, m3, m4, m5]
  generalize a.testBit 0 = b0
  generalize a.testBit 1 = b1
  generalize a.testBit 2 = b2
  generalize a.testBit 3 = b3
  generalize a.testBit 4 = b4
  generalize a.testBit 5 = b5
  revert b0 b1 b2 b3 b4 b5
  decide

/-! ## Reads inside a slot -/

theorem read_u8_eq_slot (mem : List Byte) (p k : Nat) (h : p + 32 ≤ mem.length) (hk : k < 32) :
    read_u8 mem (p + k) = some ((slot_at mem p).getD k 0) := by
  have hlt : p + k < mem.length := by omega
  simp only [read_u8, slot_at, List.getD_eq_getElem?_getD, List.getElem?_map,
    List.getElem?_take, List.getElem?_drop, hk, if_true, List.getElem?_eq_getElem hlt,
    Option.map_some', Option.getD_some]

theorem read_u16_eq_le16 (mem : List Byte) (p k : Nat) (h : p + 32 ≤ mem.length)
    (hk : k + 1 < 32) : read_u16 mem (p + k) = some (le16 (slot_at mem p) k) := by
  have h0 := read_u8_eq_slot mem p k h (by omega)
  have h1 := read_u8_eq_slot mem p (k + 1) h hk
  rw [← Nat.add_assoc] at h1
  simp only [read_u16, h0, h1, le16]

theorem read_u32_eq_le32 (mem : List Byte) (p k : Nat) (h : p + 32 ≤ mem.length)
    (hk : k + 3 < 32) : read_u32 mem (p + k) = some (le32 (slot_at mem p) k) := by
  have h0 := read_u16_eq_le16 mem p k h (by omega)
  have h1 := read_u16_eq_le16 mem p (k + 2) h (by omega)
  rw [← Nat.add_assoc] at h1
  simp only [read_u32, h0, h1, le16, le32]
  congr 1
  ring

theorem read_bytes_eq (mem : List Byte) (count p : Nat) (h : p + count ≤ mem.length) :
    read_bytes mem p count = some (((mem.drop p).take count).map Fin.val) := by
  induction count generalizing p with
  | zero => simp [read_bytes]
  | succ c ih =>
    have hlt : p < mem.length := by omega
    have hd : mem.drop p = mem[p] :: mem.drop (p + 1) := List.drop_eq_getElem_cons hlt
    have hr : read_u8 mem p = some (mem[p]).val := by
      simp only [read_u8, List.getElem?_eq_getElem hlt, Option.map_some']
    rw [read_bytes, ih (p + 1) (by omega), hd, hr]
    rfl

theorem slot_at_take (mem : List Byte) (p k : Nat) (hk : k ≤ 32) :
    (slot_at mem p).take k = ((mem.drop p).take k).map Fin.val := by
  simp only [slot_at, ← List.map_take, List.take_take, Nat.min_eq_left hk]

theorem slot_at_getD_lt (mem : List Byte) (p k : Nat) : (slot_at mem p).getD k 0 < 256 := by
  rw [List.getD_eq_getElem?_getD]
  cases hk : (slot_at mem p)[k]? with
  | none => simp
  | some x =>
    have hx : x ∈ slot_at mem p := List.getElem?_mem hk
    simp only [slot_at, List.mem_map] at hx
    obtain ⟨b, -, rfl⟩ := hx
    exact b.isLt

theorem le16_slot_lt (mem : List Byte) (p k : Nat) : le16 (slot_at mem p) k < 65536 := by
  have h0 := slot_at_getD_lt mem p k
  have h1 := slot_at_getD_lt mem p (k + 1)
  simp only [le16]
  omega

theorem read_u8_lt (mem : List Byte) (addr v : Nat) (h : read_u8 mem addr = some v) :
    v < 256 := by
  simp only [read_u8, Option.map_eq_some'] at h
  obtain ⟨b, -, rfl⟩ := h
  exact b.isLt

theorem read_u16_lt (mem : List Byte) (addr v : Nat) (h : read_u16 mem addr = some v) :
    v < 65536 := by
  unfold read_u16 at h
  cases h0 : read_u8 mem addr with
  | none => simp [h0] at h
  | some b0 =>
    cases h1 : read_u8 mem (addr + 1) with
    | none => simp [h0, h1] at h
    | some b1 =>
      simp only [h0, h1, Option.some.injEq] at h
      have := read_u8_lt mem _ _ h0
      have := read_u8_lt mem _ _ h1
      omega

theorem read_u8_some (mem : List Byte) (addr : Nat) (h : addr < mem.length) :
    read_u8 mem addr = some ((read_u8 mem addr).getD 0) := by
  simp only [read_u8, List.getElem?_eq_getElem h, Option.map_some', Option.getD_some]

theorem read_u16_some (mem : List Byte) (addr : Nat) (h : addr + 1 < mem.length) :
    read_u16 mem addr = some ((read_u16 mem addr).getD 0) := by
  have h0 := read_u8_some mem addr (by omega)
  have h1 := read_u8_some mem (addr + 1) h
  unfold read_u16
  rw [h0, h1]
  rfl

theorem int_mul_u16_u8 (a b : Nat) (ha : a < 65536) (hb : b < 256) :
    int_mul a b = some (a * b) := by
  have h : a * b ≤ 65535 * 255 := Nat.mul_le_mul (by omega) (by omega)
  have h2 : a * b ≤ INT_MAX := le_trans h (by decide)
  simp only [int_mul, h2, if_true]

theorem print_dir_entry_eq (mem : List Byte) (p : Nat) (h : p + 32 ≤ mem.length) :
    print_dir_entry mem p = some (slot_record (slot_at mem p) (sectorsPerCluster_of mem)) := by
  have o1 : offsetof_packed directoryEntry "attributes" = 11 := by decide
  have o2 : offsetof_packed directoryEntry "fileSize" = 28 := by decide
  have o3 : offsetof_packed directoryEntry "lastWriteDate" = 24 := by decide
  have o4 : offsetof_packed directoryEntry "lastWriteTime" = 22 := by decide
  have o5 : offsetof_packed directoryEntry "firstClusterLow" = 26 := by decide
  have o6 : offsetof_packed directoryEntry "name" = 0 := by decide
  have o7 : offsetof_packed fat_boot "sectorsPerCluster" = 13 := by decide
  have r1 := read_u8_eq_slot mem p 11 h (by omega)
  have r2 := read_u32_eq_le32 mem p 28 h (by omega)
  have r3 := read_u16_eq_le16 mem p 24 h (by omega)
  have r4 := read_u16_eq_le16 mem p 22 h (by omega)
  have r5 := read_u16_eq_le16 mem p 26 h (by omega)
  have r6 : read_u8 mem 13 = some (sectorsPerCluster_of mem) := by
    rw [sectorsPerCluster_of, o7]
    exact read_u8_some mem 13 (by omega)
  have r7 := int_mul_u16_u8 _ _ (le16_slot_lt mem p 26) (read_u8_lt mem _ _ r6)
  have r8 := read_bytes_eq mem 11 p (by omega)
  rw [← slot_at_take mem p 11 (by omega)] at r8
  simp only [print_dir_entry, o1, o2, o3, o4, o5, o6, o7, r1, r2, r3, r4, r5, r6, r7, r8,
    Nat.add_zero, slot_record, Option.bind_eq_bind, Option.some_bind]

/-! ## The scan loop and `main` -/

theorem slots_succ (mem : List Byte) (start n : Nat) :
    slots mem start (n + 1) = slot_at mem start :: slots mem (start + 32) n := by
  simp only [slots, List.range_succ_eq_map, List.map_cons, List.map_map, Nat.mul_zero,
    Nat.add_zero, List.cons.injEq, true_and]
  apply List.map_congr_left
  intro i _
  simp only [Function.comp_apply, Nat.succ_eq_add_one]
  congr 1
  ring

theorem scan_root_dir_eq (mem : List Byte) (n start : Nat) (h : start + 32 * n ≤ mem.length) :
    scan_root_dir mem n start =
      some (((slots mem start n).filter live).map
        (fun s => slot_record s (sectorsPerCluster_of mem))) := by
  induction n generalizing start with
  | zero => simp [scan_root_dir, slots]
  | succ k ih =>
    have hslot : start + 32 ≤ mem.length := by omega
    have o1 : offsetof_packed directoryEntry "name" = 0 := by decide
    have o2 : sizeof_packed directoryEntry = 32 := by decide
    have r0 := read_u8_eq_slot mem start 0 hslot (by omega)
    rw [Nat.add_zero] at r0
    have hrest := ih (start + 32) (by omega)
    rw [scan_root_dir, o1, o2, Nat.add_zero, r0, hrest, slots_succ]
    by_cases hl : live (slot_at mem start) = true
    · have hc : (slot_at mem start).getD 0 0 ≠ 0xE5 ∧ (slot_at mem start).getD 0 0 ≠ 0x00 := by
        simp only [live, Bool.and_eq_true, bne_iff_ne] at hl
        exact ⟨hl.2, hl.1⟩
      simp only [if_pos hc, print_dir_entry_eq mem start hslot, List.filter_cons_of_pos hl,
        List.map_cons]
    · have hc : ¬((slot_at mem start).getD 0 0 ≠ 0xE5 ∧ (slot_at mem start).getD 0 0 ≠ 0x00) := by
        intro hc
        apply hl
        simp only [live, Bool.and_eq_true, bne_iff_ne]
        exact ⟨hc.2, hc.1⟩
      simp only [if_neg hc, List.filter_cons_of_neg hl]

theorem root_dir_offset_eq (f s b : Nat) (hf : f < 2 ^ 8) (hs : s < 2 ^ 16)
    (h : f * s * b ≤ INT_MAX) : root_dir_offset f s b = some (512 + f * s * b) := by
  have h1 : f * s ≤ 255 * 65535 := Nat.mul_le_mul (by omega) (by omega)
  have h2 : f * s ≤ INT_MAX := le_trans h1 (by decide)
  simp only [root_dir_offset, int_mul, h2, h, if_true, Option.bind_eq_bind, Option.some_bind]

theorem print_fat_boot_record_info_some (mem : List Byte) (hlen : 512 ≤ mem.length) :
    ∃ info, print_fat_boot_record_info mem = some info := by
  have o1 : offsetof_packed fat_boot "bytesPerSector" = 11 := by decide
  have o2 : offsetof_packed fat_boot "sectorsPerCluster" = 13 := by decide
  have o3 : offsetof_packed fat_boot "fatCount" = 16 := by decide
  have o4 : offsetof_packed fat_boot "sectorsPerFat16" = 22 := by decide
  have o5 : offsetof_packed fat_boot "rootDirEntryCount" = 17 := by decide
  have o6 : offsetof_packed fat_boot "reservedSectorCount" = 14 := by decide
  have o7 : offsetof_packed fat_boot "bootSectorSig0" = 510 := by decide
  have o8 : offsetof_packed fat_boot "bootSectorSig1" = 511 := by decide
  have r1 := read_u16_some mem 11 (by omega)
  have r2 := read_u8_some mem 13 (by omega)
  have r3 := read_u8_some mem 16 (by omega)
  have r4 := read_u16_some mem 22 (by omega)
  have r5 := read_u16_some mem 17 (by omega)
  have r6 := read_u16_some mem 14 (by omega)
  have r7 := read_u8_some mem 510 (by omega)
  have r8 := read_u8_some mem 511 (by omega)
  unfold print_fat_boot_record_info
  rw [o1, o2, o3, o4, o5, o6, o7, o8, r1, r2, r3, r4, r5, r6, r7, r8]
  simp only [Option.bind_eq_bind, Option.some_bind, Option.map_some']
  split <;> simp

theorem main_eq (fs_bin : List Byte)
    (hprod : fatCount_of fs_bin * sectorsPerFat16_of fs_bin * bytesPerSector_of fs_bin ≤ INT_MAX)
    (hfit : 512 + fatCount_of fs_bin * sectorsPerFat16_of fs_bin * bytesPerSector_of fs_bin
      + rootDirEntryCount_of fs_bin * 32 ≤ fs_bin.length) :
    ∃ info, main fs_bin = some (info,
      ((slots fs_bin
          (512 + fatCount_of fs_bin * sectorsPerFat16_of fs_bin * bytesPerSector_of fs_bin)
          (rootDirEntryCount_of fs_bin)).filter live).map
        (fun s => slot_record s (sectorsPerCluster_of fs_bin))) := by
  have hlen : 512 ≤ fs_bin.length := by omega
  obtain ⟨info, hinfo⟩ := print_fat_boot_record_info_some fs_bin hlen
  have o1 : offsetof_packed fat_boot "bytesPerSector" = 11 := by decide
  have o3 : offsetof_packed fat_boot "fatCount" = 16 := by decide
  have o4 : offsetof_packed fat_boot "sectorsPerFat16" = 22 := by decide
  have o5 : offsetof_packed fat_boot "rootDirEntryCount" = 17 := by decide
  have r1 : read_u16 fs_bin 11 = some (bytesPerSector_of fs_bin) := by
    rw [bytesPerSector_of, o1]; exact read_u16_some fs_bin 11 (by omega)
  have r3 : read_u8 fs_bin 16 = some (fatCount_of fs_bin) := by
    rw [fatCount_of, o3]; exact read_u8_some fs_bin 16 (by omega)
  have r4 : read_u16 fs_bin 22 = some (sectorsPerFat16_of fs_bin) := by
    rw [sectorsPerFat16_of, o4]; exact read_u16_some fs_bin 22 (by omega)
  have r5 : read_u16 fs_bin 17 = some (rootDirEntryCount_of fs_bin) := by
    rw [rootDirEntryCount_of, o5]; exact read_u16_some fs_bin 17 (by omega)
  have hoff := root_dir_offset_eq _ _ _ (read_u8_lt fs_bin _ _ r3) (read_u16_lt fs_bin _ _ r4)
    hprod
  have hscan := scan_root_dir_eq fs_bin (rootDirEntryCount_of fs_bin)
    (512 + fatCount_of fs_bin * sectorsPerFat16_of fs_bin * bytesPerSector_of fs_bin)
    (by omega)
  refine ⟨info, ?_⟩
  unfold main
  rw [hinfo, o1, o3, o4, o5, r1, r3, r4, r5]
  simp only [Option.bind_eq_bind, Option.some_bind, hoff, hscan]

/-! ## Images given as a head followed by a directory region -/

theorem read_u8_append_left (a b : List Byte) (i : Nat) (h : i < a.length) :
    read_u8 (a ++ b) i = read_u8 a i := by
  simp only [read_u8, List.getElem?_append_left h]

theorem read_u8_append_right (a b : List Byte) (k : Nat) :
    read_u8 (a ++ b) (a.length + k) = read_u8 b k := by
  simp only [read_u8, List.getElem?_append_right (Nat.le_add_right a.length k),
    Nat.add_sub_cancel_left]

theorem read_u16_append_left (a b : List Byte) (i : Nat) (h : i + 1 < a.length) :
    read_u16 (a ++ b) i = read_u16 a i := by
  simp only [read_u16, read_u8_append_left a b i (by omega), read_u8_append_left a b (i + 1) h]

theorem boot_fields_append (a b : List Byte) (h : 24 ≤ a.length) :
    fatCount_of (a ++ b) = fatCount_of a ∧
    sectorsPerFat16_of (a ++ b) = sectorsPerFat16_of a ∧
    bytesPerSector_of (a ++ b) = bytesPerSector_of a ∧
    rootDirEntryCount_of (a ++ b) = rootDirEntryCount_of a ∧
    sectorsPerCluster_of (a ++ b) = sectorsPerCluster_of a := by
  have o1 : offsetof_packed fat_boot "bytesPerSector" = 11 := by decide
  have o2 : offsetof_packed fat_boot "sectorsPerCluster" = 13 := by decide
  have o3 : offsetof_packed fat_boot "fatCount" = 16 := by decide
  have o4 : offsetof_packed fat_boot "sectorsPerFat16" = 22 := by decide
  have o5 : offsetof_packed fat_boot "rootDirEntryCount" = 17 := by decide
  simp only [fatCount_of, sectorsPerFat16_of, bytesPerSector_of, rootDirEntryCount_of,
    sectorsPerCluster_of, o1, o2, o3, o4, o5]
  rw [read_u8_append_left a b 16 (by omega), read_u16_append_left a b 22 (by omega),
    read_u16_append_left a b 11 (by omega), read_u16_append_left a b 17 (by omega),
    read_u8_append_left a b 13 (by omega)]
  exact ⟨rfl, rfl, rfl, rfl, rfl⟩

theorem slot_at_append (pre region post : List Byte) (q : Nat) (h : q + 32 ≤ region.length) :
    slot_at (pre ++ (region ++ post)) (pre.length + q) = slot_at region q := by
  have h1 : (region ++ post).drop q = region.drop q ++ post :=
    List.drop_append_of_le_length (by omega)
  have h2 : 32 ≤ (region.drop q).length := by
    rw [List.length_drop]
    omega
  simp only [slot_at, List.drop_append, h1, List.take_append_of_le_length h2]

theorem slots_append (pre region post : List Byte) (n : Nat) (h : 32 * n ≤ region.length) :
    slots (pre ++ (region ++ post)) pre.length n = slots region 0 n := by
  simp only [slots]
  apply List.map_congr_left
  intro i hi
  have hi' : i < n := List.mem_range.mp hi
  rw [slot_at_append pre region post (32 * i) (by omega), Nat.zero_add]

theorem scan_root_dir_add (mem : List Byte) (a b start : Nat) :
    scan_root_dir mem (a + b) start =
      match scan_root_dir mem a start, scan_root_dir mem b (start + 32 * a) with
      | some x, some y => some (x ++ y)
      | _, _ => none := by
  have o2 : sizeof_packed directoryEntry = 32 := by decide
  induction a generalizing start with
  | zero =>
    simp only [Nat.zero_add, scan_root_dir, Nat.mul_zero, Nat.add_zero, List.nil_append]
    cases scan_root_dir mem b start <;> rfl
  | succ k ih =>
    have e : k + 1 + b = (k + b) + 1 := by omega
    have e2 : start + 32 * (k + 1) = start + 32 + 32 * k := by omega
    rw [e, scan_root_dir, scan_root_dir, o2, ih (start + 32), e2]
    cases read_u8 mem (start + offsetof_packed directoryEntry "name") with
    | none => rfl
    | some name0 =>
      simp only []
      cases scan_root_dir mem k (start + 32) with
      | none =>
        split
        · cases print_dir_entry mem start <;> rfl
        · rfl
      | some x =>
        cases scan_root_dir mem b (start + 32 + 32 * k) with
        | none =>
          split
          · cases print_dir_entry mem start <;> rfl
          · rfl
        | some y =>
          split
          · cases print_dir_entry mem start <;> rfl
          · rfl

theorem scan_root_dir_free_slot (mem : List Byte) (p : Nat) (h : read_u8 mem p = some 0) :
    scan_root_dir mem 1 p = some [] := by
  have o1 : offsetof_packed directoryEntry "name" = 0 := by decide
  simp only [scan_root_dir, o1, Nat.add_zero, h]
  rfl

theorem main_eq_scan (fs_bin : List Byte) (hlen : 512 ≤ fs_bin.length)
    (hprod : fatCount_of fs_bin * sectorsPerFat16_of fs_bin * bytesPerSector_of fs_bin ≤ INT_MAX) :
    ∃ info, main fs_bin =
      (scan_root_dir fs_bin (rootDirEntryCount_of fs_bin)
        (512 + fatCount_of fs_bin * sectorsPerFat16_of fs_bin * bytesPerSector_of fs_bin)).map
        (fun lines => (info, lines)) := by
  obtain ⟨info, hinfo⟩ := print_fat_boot_record_info_some fs_bin hlen
  have o1 : offsetof_packed fat_boot "bytesPerSector" = 11 := by decide
  have o3 : offsetof_packed fat_boot "fatCount" = 16 := by decide
  have o4 : offsetof_packed fat_boot "sectorsPerFat16" = 22 := by decide
  have o5 : offsetof_packed fat_boot "rootDirEntryCount" = 17 := by decide
  have r1 : read_u16 fs_bin 11 = some (bytesPerSector_of fs_bin) := by
    rw [bytesPerSector_of, o1]; exact read_u16_some fs_bin 11 (by omega)
  have r3 : read_u8 fs_bin 16 = some (fatCount_of fs_bin) := by
    rw [fatCount_of, o3]; exact read_u8_some fs_bin 16 (by omega)
  have r4 : read_u16 fs_bin 22 = some (sectorsPerFat16_of fs_bin) := by
    rw [sectorsPerFat16_of, o4]; exact read_u16_some fs_bin 22 (by omega)
  have r5 : read_u16 fs_bin 17 = some (rootDirEntryCount_of fs_bin) := by
    rw [rootDirEntryCount_of, o5]; exact read_u16_some fs_bin 17 (by omega)
  have hoff := root_dir_offset_eq _ _ _ (read_u8_lt fs_bin _ _ r3) (read_u16_lt fs_bin _ _ r4)
    hprod
  refine ⟨info, ?_⟩
  unfold main
  rw [hinfo, o1, o3, o4, o5, r1, r3, r4, r5]
  simp only [Option.bind_eq_bind, Option.some_bind, hoff]
  cases scan_root_dir fs_bin (rootDirEntryCount_of fs_bin)
    (512 + fatCount_of fs_bin * sectorsPerFat16_of fs_bin * bytesPerSector_of fs_bin) <;> rfl

theorem main_lines_eq_scan (fs_bin : List Byte) (hlen : 512 ≤ fs_bin.length)
    (hprod : fatCount_of fs_bin * sectorsPerFat16_of fs_bin * bytesPerSector_of fs_bin ≤ INT_MAX) :
    (main fs_bin).map Prod.snd =
      scan_root_dir fs_bin (rootDirEntryCount_of fs_bin)
        (512 + fatCount_of fs_bin * sectorsPerFat16_of fs_bin * bytesPerSector_of fs_bin) := by
  obtain ⟨info, h⟩ := main_eq_scan fs_bin hlen hprod
  rw [h]
  cases scan_root_dir fs_bin (rootDirEntryCount_of fs_bin)
    (512 + fatCount_of fs_bin * sectorsPerFat16_of fs_bin * bytesPerSector_of fs_bin) <;> rfl

/-! ## The concrete volumes -/

theorem hello_head_length : hello_head.length = 4608 := by decide!

theorem hello_slot_length : hello_slot.length = 32 := by decide

theorem hello_head_fields :
    fatCount_of hello_head = 2 ∧ sectorsPerFat16_of hello_head = 4 ∧
    bytesPerSector_of hello_head = 512 ∧ rootDirEntryCount_of hello_head = 16 ∧
    sectorsPerCluster_of hello_head = 4 := by
  decide!

theorem hello_slot_record :
    slot_record (slot_at hello_slot 0) 4 =
      { status := bytesOf "-----a", size := 1024,
        last_modified := bytesOf "2021-07-16 10:30:00", cluster := 5, block := 20,
        file_name := bytesOf "HELLO.TXT", identifier := 0x20 } := by
  decide

theorem hello_root_dir_length : hello_root_dir.length = 512 := by
  simp only [hello_root_dir, List.length_append, hello_slot_length, zeros,
    List.length_replicate]

theorem hello_volume_length : hello_volume.length = 65536 := by
  simp only [hello_volume, List.length_append, hello_head_length, hello_root_dir_length, zeros,
    List.length_replicate]

theorem truncated_hello_volume_length : truncated_hello_volume.length = 5089 := by
  simp only [truncated_hello_volume, List.length_append, hello_head_length, hello_slot_length,
    zeros, List.length_replicate]

theorem hello_volume_fields :
    fatCount_of hello_volume = 2 ∧ sectorsPerFat16_of hello_volume = 4 ∧
    bytesPerSector_of hello_volume = 512 ∧ rootDirEntryCount_of hello_volume = 16 ∧
    sectorsPerCluster_of hello_volume = 4 := by
  have h := boot_fields_append hello_head (hello_root_dir ++ zeros (65536 - 5120))
    (by rw [hello_head_length]; omega)
  have f := hello_head_fields
  rw [hello_volume, h.1, h.2.1, h.2.2.1, h.2.2.2.1, h.2.2.2.2]
  exact f

theorem truncated_hello_volume_fields :
    fatCount_of truncated_hello_volume = 2 ∧ sectorsPerFat16_of truncated_hello_volume = 4 ∧
    bytesPerSector_of truncated_hello_volume = 512 ∧
    rootDirEntryCount_of truncated_hello_volume = 16 ∧
    sectorsPerCluster_of truncated_hello_volume = 4 := by
  have h := boot_fields_append hello_head ((hello_slot ++ zeros (14 * 32)) ++ zeros 1)
    (by rw [hello_head_length]; omega)
  have f := hello_head_fields
  rw [truncated_hello_volume, h.1, h.2.1, h.2.2.1, h.2.2.2.1, h.2.2.2.2]
  exact f

theorem hello_volume_slots : slots hello_volume 4608 16 = slots hello_root_dir 0 16 := by
  have h := slots_append hello_head hello_root_dir (zeros (65536 - 5120)) 16
    (by rw [hello_root_dir_length])
  rw [hello_head_length] at h
  exact h

theorem hello_volume_slot : slot_at hello_volume 4608 = slot_at hello_root_dir 0 := by
  have h := slot_at_append hello_head hello_root_dir (zeros (65536 - 5120)) 0
    (by rw [hello_root_dir_length]; omega)
  rw [hello_head_length] at h
  exact h

theorem hello_root_dir_records :
    (slots hello_root_dir 0 16).filter live = [slot_at hello_root_dir 0] ∧
    slot_at hello_root_dir 0 = slot_at hello_slot 0 := by
  decide!

theorem truncated_hello_volume_live_slots :
    (slots truncated_hello_volume 4608 15).filter live = [slot_at hello_slot 0] := by
  have h := slots_append hello_head (hello_slot ++ zeros (14 * 32)) (zeros 1) 15
    (by simp only [List.length_append, hello_slot_length, zeros, List.length_replicate]; omega)
  rw [hello_head_length] at h
  rw [truncated_hello_volume, h]
  decide!

theorem truncated_hello_volume_last_byte : read_u8 truncated_hello_volume 5088 = some 0 := by
  have h := read_u8_append_right hello_head ((hello_slot ++ zeros (14 * 32)) ++ zeros 1) 480
  rw [hello_head_length] at h
  rw [truncated_hello_volume, h]
  decide!

theorem truncated_hello_volume_scan :
    scan_root_dir truncated_hello_volume 16 4608 =
      some [slot_record (slot_at hello_slot 0) 4] := by
  have h15 := scan_root_dir_eq truncated_hello_volume 15 4608
    (by rw [truncated_hello_volume_length]; omega)
  have h1 := scan_root_dir_free_slot truncated_hello_volume (4608 + 32 * 15)
    truncated_hello_volume_last_byte
  rw [truncated_hello_volume_live_slots, truncated_hello_volume_fields.2.2.2.2] at h15
  rw [show (16 : Nat) = 15 + 1 from rfl, scan_root_dir_add, h15, h1]
  rfl

theorem three_slot_head_length : three_slot_head.length = 1536 := by decide!

theorem three_slot_root_dir_length : three_slot_root_dir.length = 96 := by decide

theorem three_slot_volume_length : three_slot_volume.length = 1632 := by
  simp only [three_slot_volume, List.length_append, three_slot_head_length,
    three_slot_root_dir_length]

theorem three_slot_head_fields :
    fatCount_of three_slot_head = 2 ∧ sectorsPerFat16_of three_slot_head = 1 ∧
    bytesPerSector_of three_slot_head = 512 ∧ rootDirEntryCount_of three_slot_head = 3 ∧
    sectorsPerCluster_of three_slot_head = 1 := by
  decide!

theorem three_slot_volume_fields :
    fatCount_of three_slot_volume = 2 ∧ sectorsPerFat16_of three_slot_volume = 1 ∧
    bytesPerSector_of three_slot_volume = 512 ∧ rootDirEntryCount_of three_slot_volume = 3 ∧
    sectorsPerCluster_of three_slot_volume = 1 := by
  have h := boot_fields_append three_slot_head three_slot_root_dir
    (by rw [three_slot_head_length]; omega)
  have f := three_slot_head_fields
  rw [three_slot_volume, h.1, h.2.1, h.2.2.1, h.2.2.2.1, h.2.2.2.2]
  exact f

theorem three_slot_volume_slots :
    slots three_slot_volume 1536 3 = slots three_slot_root_dir 0 3 := by
  have h := slots_append three_slot_head three_slot_root_dir [] 3
    (by rw [three_slot_root_dir_length])
  rw [three_slot_head_length, List.append_nil] at h
  rw [three_slot_volume, h]

theorem three_slot_root_dir_records :
    (slots three_slot_root_dir 0 3).map (fun s => s.getD 0 0) = [0xE5, 0x00, 0x4E] ∧
    (slots three_slot_root_dir 0 3).filter live = [slot_at three_slot_root_dir 64] ∧
    slot_record (slot_at three_slot_root_dir 64) 1 =
      { status := bytesOf "r-----", size := 77,
        last_modified := bytesOf "2021-07-16 10:30:00", cluster := 3, block := 3,
        file_name := bytesOf "NOTE.MD", identifier := 0x20 } := by
  decide!

/-! ## Claims on names, attributes, the directory scan and the region offset -/

/-- C1: for the name field `FILENAMETXT` (8-character base, no space in bytes
0..7) `get_dir_entry_name` returns `FILENAMETXT.TXT`, whereas the 8.3 rule gives
`FILENAME.TXT`: the search for the end of the base runs on into the extension
bytes.  With a shorter base (`BAR     TXT`) the result is `BAR.TXT`. -/
theorem C1_name_of_eight_character_base :
    get_dir_entry_name (bytesOf "FILENAMETXT") = bytesOf "FILENAMETXT.TXT" ∧
    name_8_3 (bytesOf "FILENAMETXT") = bytesOf "FILENAME.TXT" ∧
    get_dir_entry_name (bytesOf "FILENAMETXT") ≠ name_8_3 (bytesOf "FILENAMETXT") ∧
    get_dir_entry_name (bytesOf "BAR     TXT") = bytesOf "BAR.TXT" := by
  decide

/-- C4: when the `n` slots that start at `start` lie inside the image, the scan
loop returns the records of exactly the live slots among them, in slot order;
a `0x00` slot does not stop it.  On the volume whose root directory is
[deleted slot, free slot, `NOTE.MD`] the loop, and `main`, emit the single
record of `NOTE.MD`. -/
theorem C4_scan_emits_live_slots_in_order :
    (∀ (mem : List Byte) (n start : Nat), start + 32 * n ≤ mem.length →
      scan_root_dir mem n start =
        some (((slots mem start n).filter live).map
          (fun s => slot_record s (sectorsPerCluster_of mem)))) ∧
    (slots three_slot_volume 1536 3).map (fun s => s.getD 0 0) = [0xE5, 0x00, 0x4E] ∧
    scan_root_dir three_slot_volume 3 1536 =
      some [{ status := bytesOf "r-----", size := 77,
              last_modified := bytesOf "2021-07-16 10:30:00", cluster := 3, block := 3,
              file_name := bytesOf "NOTE.MD", identifier := 0x20 }] ∧
    (main three_slot_volume).map Prod.snd =
      some [{ status := bytesOf "r-----", size := 77,
              last_modified := bytesOf "2021-07-16 10:30:00", cluster := 3, block := 3,
              file_name := bytesOf "NOTE.MD", identifier := 0x20 }] := by
  have f := three_slot_volume_fields
  have r := three_slot_root_dir_records
  have hscan : scan_root_dir three_slot_volume 3 1536 =
      some [{ status := bytesOf "r-----", size := 77,
              last_modified := bytesOf "2021-07-16 10:30:00", cluster := 3, block := 3,
              file_name := bytesOf "NOTE.MD", identifier := 0x20 }] := by
    rw [scan_root_dir_eq three_slot_volume 3 1536 (by rw [three_slot_volume_length]),
      three_slot_volume_slots, r.2.1, f.2.2.2.2, List.map_cons, List.map_nil, r.2.2]
  refine ⟨scan_root_dir_eq, ?_, hscan, ?_⟩
  · rw [three_slot_volume_slots]
    exact r.1
  · have hm := main_lines_eq_scan three_slot_volume (by rw [three_slot_volume_length]; omega)
      (by rw [f.1, f.2.1, f.2.2.1]; decide)
    rw [f.1, f.2.1, f.2.2.1, f.2.2.2.1] at hm
    rw [hm]
    exact hscan

/-- Witness of C4 on the three-slot volume. -/
theorem C4_scan_emits_live_slots_in_order_witness :
    1536 + 32 * 3 ≤ three_slot_volume.length ∧
    scan_root_dir three_slot_volume 3 1536 =
      some (((slots three_slot_volume 1536 3).filter live).map
        (fun s => slot_record s (sectorsPerCluster_of three_slot_volume))) :=
  ⟨by rw [three_slot_volume_length],
    C4_scan_emits_live_slots_in_order.1 three_slot_volume 3 1536
      (by rw [three_slot_volume_length])⟩

/-- C5 (as stated, refuted): for `fatCount = 2`, `sectorsPerFat16 = 65535`,
`bytesPerSector = 32768` the `int` product exceeds `INT_MAX`, and the offset is
not `512 + 2 * 65535 * 32768`. -/
theorem C5_counterexample_int_overflow :
    INT_MAX < 2 * 65535 * 32768 ∧
    root_dir_offset 2 65535 32768 = none ∧
    root_dir_offset 2 65535 32768 ≠ some (512 + 2 * 65535 * 32768) := by
  decide

/-- C5 (amended): for boot-sector values whose product
`fatCount * sectorsPerFat16 * bytesPerSector` fits an `int`, the offset at which
`main` starts reading slots is `512 + fatCount * sectorsPerFat16 * bytesPerSector`,
whatever `bytesPerSector` is; for 2, 32, 512 it is 33280, and for 2, 32, 1024
it is `512 + 65536`. -/
theorem C5_root_dir_offset :
    (∀ f s b : Nat, f < 2 ^ 8 → s < 2 ^ 16 → b < 2 ^ 16 → f * s * b ≤ INT_MAX →
      root_dir_offset f s b = some (512 + f * s * b)) ∧
    root_dir_offset 2 32 512 = some 33280 ∧
    root_dir_offset 2 32 1024 = some (512 + 65536) :=
  ⟨fun f s b hf hs _ h => root_dir_offset_eq f s b hf hs h, by decide, by decide⟩

/-- Witness of C5 at `fatCount = 2`, `sectorsPerFat16 = 32`, `bytesPerSector = 512`. -/
theorem C5_root_dir_offset_witness :
    (2 < 2 ^ 8 ∧ 32 < 2 ^ 16 ∧ 512 < 2 ^ 16 ∧ 2 * 32 * 512 ≤ INT_MAX) ∧
    root_dir_offset 2 32 512 = some (512 + 2 * 32 * 512) :=
  ⟨by decide, C5_root_dir_offset.1 2 32 512 (by decide) (by decide) (by decide) (by decide)⟩

/-- C6: `get_dir_entry_status a` has exactly 6 characters; character `i` is
character `i` of `rhsvda` when bit `i` of `a` is set and a dash when it is
clear; bits 6 and 7 of `a` have no influence; `0x21` gives `r----a`. -/
theorem C6_status_string (a : Nat) :
    (get_dir_entry_status a).length = 6 ∧
    (∀ i, i < 6 → (get_dir_entry_status a)[i]? =
      some (if a.testBit i then (bytesOf "rhsvda").getD i 0 else 0x2D)) ∧
    (∀ i, i < 6 → (a.testBit i ↔ a &&& masks.getD i 0 ≠ 0)) ∧
    get_dir_entry_status a = get_dir_entry_status (a % 2 ^ 6) ∧
    get_dir_entry_status 0x21 = bytesOf "r----a" := by
  have hb : bytesOf "rhsvda" = [0x72, 0x68, 0x73, 0x76, 0x64, 0x61] := by decide
  refine ⟨?_, ?_, ?_, ?_, by decide⟩
  · rw [get_dir_entry_status_eq]
    rfl
  · intro i hi
    rw [get_dir_entry_status_eq, hb]
    interval_cases i <;> rfl
  · intro i hi
    have hm : masks.getD i 0 = 2 ^ i := by
      interval_cases i <;> rfl
    have := and_two_pow_eq_zero_iff a i
    rw [hm]
    constructor
    · intro h1 h2
      rw [this.mp h2] at h1
      exact Bool.false_ne_true h1
    · intro h1
      cases hbit : a.testBit i with
      | true => rfl
      | false => exact absurd (this.mpr hbit) h1
  · rw [get_dir_entry_status_eq, get_dir_entry_status_eq]
    simp only [Nat.testBit_mod_two_pow]
    simp

/-- C7: the record printed for the slot at offset `p` is `slot_record` of the
32 bytes of the slot and of `sectorsPerCluster`; a live slot scanned alone
emits exactly that record; `directoryEntry` is 32 bytes with the members at
offsets 0, 11, 22, 24, 26, 28; on the 64 KB end-to-end volume the slot
`HELLO   TXT` (size 1024, first cluster 5, written 2021-06-15 10:30:00) gives
name `HELLO.TXT`, size 1024, cluster 5, date and time `2021-07-16 10:30:00`,
and it is the only line `main` prints. -/
theorem C7_record_of_slot :
    (∀ (mem : List Byte) (p : Nat), p + 32 ≤ mem.length →
      print_dir_entry mem p = some (slot_record (slot_at mem p) (sectorsPerCluster_of mem)) ∧
      (live (slot_at mem p) = true →
        scan_root_dir mem 1 p = some [slot_record (slot_at mem p) (sectorsPerCluster_of mem)])) ∧
    sizeof_packed directoryEntry = 32 ∧
    (["name", "attributes", "lastWriteTime", "lastWriteDate", "firstClusterLow",
        "fileSize"].map (offsetof_packed directoryEntry) = [0, 11, 22, 24, 26, 28]) ∧
    (slot_at hello_volume 4608).take 11 = bytesOf "HELLO   TXT" ∧
    le16 (slot_at hello_volume 4608) 22 = repack_time { sec := 0, min := 30, hour := 10 } ∧
    le16 (slot_at hello_volume 4608) 24 =
      repack_date { day := 15, month := 6, year := 2021 - 1980 } ∧
    print_dir_entry hello_volume 4608 =
      some { status := bytesOf "-----a", size := 1024,
             last_modified := bytesOf "2021-07-16 10:30:00", cluster := 5, block := 20,
             file_name := bytesOf "HELLO.TXT", identifier := 0x20 } ∧
    (main hello_volume).map Prod.snd =
      some [{ status := bytesOf "-----a", size := 1024,
              last_modified := bytesOf "2021-07-16 10:30:00", cluster := 5, block := 20,
              file_name := bytesOf "HELLO.TXT", identifier := 0x20 }] := by
  have f := hello_volume_fields
  have hslot : slot_at hello_volume 4608 = slot_at hello_slot 0 := by
    rw [hello_volume_slot, hello_root_dir_records.2]
  refine ⟨?_, by decide, by decide, ?_, ?_, ?_, ?_, ?_⟩
  · intro mem p h
    refine ⟨print_dir_entry_eq mem p h, ?_⟩
    intro hl
    have hs := scan_root_dir_eq mem 1 p (by omega)
    have h1 : slots mem p 1 = [slot_at mem p] := by
      rw [slots_succ]
      rfl
    rw [hs, h1, List.filter_cons_of_pos hl]
    rfl
  · rw [hslot]
    decide
  · rw [hslot]
    decide
  · rw [hslot]
    decide
  · rw [print_dir_entry_eq hello_volume 4608 (by rw [hello_volume_length]; decide), hslot,
      f.2.2.2.2, hello_slot_record]
  · have hm := main_lines_eq_scan hello_volume (by rw [hello_volume_length]; decide)
      (by rw [f.1, f.2.1, f.2.2.1]; decide)
    rw [f.1, f.2.1, f.2.2.1, f.2.2.2.1] at hm
    rw [hm, scan_root_dir_eq hello_volume 16 (512 + 2 * 4 * 512)
        (by rw [hello_volume_length]; decide),
      hello_volume_slots, hello_root_dir_records.1, f.2.2.2.2, List.map_cons, List.map_nil,
      hello_root_dir_records.2, hello_slot_record]

/-- Witness of C7 at the `HELLO.TXT` slot of the end-to-end volume. -/
theorem C7_record_of_slot_witness :
    (4608 + 32 ≤ hello_volume.length ∧ live (slot_at hello_volume 4608) = true) ∧
    print_dir_entry hello_volume 4608 =
      some (slot_record (slot_at hello_volume 4608) (sectorsPerCluster_of hello_volume)) ∧
    scan_root_dir hello_volume 1 4608 =
      some [slot_record (slot_at hello_volume 4608) (sectorsPerCluster_of hello_volume)] :=
  have hlen : 4608 + 32 ≤ hello_volume.length := by rw [hello_volume_length]; decide
  have hlive : live (slot_at hello_volume 4608) = true := by
    rw [hello_volume_slot, hello_root_dir_records.2]; decide
  ⟨⟨hlen, hlive⟩, (C7_record_of_slot.1 hello_volume 4608 hlen).1,
    (C7_record_of_slot.1 hello_volume 4608 hlen).2 hlive⟩

/-- C8 (as stated, refuted): on the end-to-end volume cut 31 bytes short the
root-directory region ends beyond the buffer (5089 < 512 + 2 * 4 * 512 + 16 * 32),
yet `main` reports no error: it scans the 16 slots, prints the record of
`HELLO.TXT` and ends normally. -/
theorem C8_counterexample_truncated_region :
    truncated_hello_volume.length <
      512 + fatCount_of truncated_hello_volume * sectorsPerFat16_of truncated_hello_volume
          * bytesPerSector_of truncated_hello_volume
        + rootDirEntryCount_of truncated_hello_volume * 32 ∧
    (main truncated_hello_volume).map Prod.snd =
      some [{ status := bytesOf "-----a", size := 1024,
              last_modified := bytesOf "2021-07-16 10:30:00", cluster := 5, block := 20,
              file_name := bytesOf "HELLO.TXT", identifier := 0x20 }] := by
  have f := truncated_hello_volume_fields
  have hm := main_lines_eq_scan truncated_hello_volume
    (by rw [truncated_hello_volume_length]; omega)
    (by rw [f.1, f.2.1, f.2.2.1]; decide)
  rw [f.1, f.2.1, f.2.2.1, f.2.2.2.1] at hm
  refine ⟨?_, ?_⟩
  · rw [truncated_hello_volume_length, f.1, f.2.1, f.2.2.1, f.2.2.2.1]
    decide
  · rw [hm, truncated_hello_volume_scan, hello_slot_record]

/-- C8 (amended): when the `int` product
`fatCount * sectorsPerFat16 * bytesPerSector` does not overflow and
`512 + fatCount * sectorsPerFat16 * bytesPerSector + rootDirEntryCount * 32`
does not exceed the buffer length, `main` succeeds: it prints the boot record
and the records of the live slots of the region. -/
theorem C8_main_succeeds_in_range (fs_bin : List Byte)
    (hprod : fatCount_of fs_bin * sectorsPerFat16_of fs_bin * bytesPerSector_of fs_bin ≤ INT_MAX)
    (hfit : 512 + fatCount_of fs_bin * sectorsPerFat16_of fs_bin * bytesPerSector_of fs_bin
      + rootDirEntryCount_of fs_bin * 32 ≤ fs_bin.length) :
    ∃ info, main fs_bin = some (info,
      ((slots fs_bin
          (512 + fatCount_of fs_bin * sectorsPerFat16_of fs_bin * bytesPerSector_of fs_bin)
          (rootDirEntryCount_of fs_bin)).filter live).map
        (fun s => slot_record s (sectorsPerCluster_of fs_bin))) :=
  main_eq fs_bin hprod hfit

/-- Witness of C8 on the end-to-end volume. -/
theorem C8_main_succeeds_in_range_witness :
    (fatCount_of hello_volume * sectorsPerFat16_of hello_volume * bytesPerSector_of hello_volume
        ≤ INT_MAX ∧
      512 + fatCount_of hello_volume * sectorsPerFat16_of hello_volume
          * bytesPerSector_of hello_volume
        + rootDirEntryCount_of hello_volume * 32 ≤ hello_volume.length) ∧
    ∃ info, main hello_volume = some (info,
      ((slots hello_volume
          (512 + fatCount_of hello_volume * sectorsPerFat16_of hello_volume
            * bytesPerSector_of hello_volume)
          (rootDirEntryCount_of hello_volume)).filter live).map
        (fun s => slot_record s (sectorsPerCluster_of hello_volume))) :=
  have f := hello_volume_fields
  have h2 : fatCount_of hello_volume * sectorsPerFat16_of hello_volume
      * bytesPerSector_of hello_volume ≤ INT_MAX := by
    rw [f.1, f.2.1, f.2.2.1]; decide
  have h3 : 512 + fatCount_of hello_volume * sectorsPerFat16_of hello_volume
      * bytesPerSector_of hello_volume
      + rootDirEntryCount_of hello_volume * 32 ≤ hello_volume.length := by
    rw [f.1, f.2.1, f.2.2.1, f.2.2.2.1, hello_volume_length]; decide
  ⟨⟨h2, h3⟩, C8_main_succeeds_in_range hello_volume h2 h3⟩

/-! ## Claims on time ranges, the kind character and the offset arithmetic -/

/-- C11 (as stated, refuted): the packed time `60 << 5` decodes to minute 60
and the packed time `24 << 11` to hour 24; `0xFFFF` decodes to minute 63 and
hour 31.  The fields are unpacked without any range check. -/
theorem C11_counterexample_minutes_hours :
    (fat_time_t.ctor (60 <<< 5)).min = 60 ∧ ¬ (date_time_args 0 (60 <<< 5)).min ≤ 59 ∧
    (fat_time_t.ctor (24 <<< 11)).hour = 24 ∧ ¬ (date_time_args 0 (24 <<< 11)).hour ≤ 23 ∧
    (fat_time_t.ctor 0xFFFF).min = 63 ∧ (fat_time_t.ctor 0xFFFF).hour = 31 := by
  decide

/-- C11 (amended): for every 16-bit packed time `t` the decoded seconds are
even and at most 58, the minutes lie in `[0, 63]` and the hours in `[0, 31]`;
when the minute and hour bit-fields hold valid values (at most 59 and 23) the
decoded minutes and hours are those values. -/
theorem C11_time_component_ranges (t : Nat) (ht : t < 2 ^ 16) :
    (∃ k, k ≤ 29 ∧ (fat_time_t.ctor t).sec = 2 * k) ∧
    (fat_time_t.ctor t).min ≤ 63 ∧ (fat_time_t.ctor t).hour ≤ 31 ∧
    (fat_time_t.ctor t).min = (t >>> 5) &&& 0x3F ∧ (fat_time_t.ctor t).hour = t >>> 11 := by
  have ht' : t < 65536 := ht
  have h6 : (t / 2 ^ 5) &&& 0x3F = t / 2 ^ 5 % 64 := and_mask_eq_mod (t / 2 ^ 5) 6
  rw [fat_time_ctor_eq t ht]
  simp only [Nat.shiftRight_eq_div_pow]
  refine ⟨⟨t % 32 * 2 % 32 / 2, by omega, by omega⟩, by omega, by omega, ?_, ?_⟩ <;>
    first | trivial | omega

/-- Witness of C11 at the packed time of 10:30:00. -/
theorem C11_time_component_ranges_witness :
    (∃ k, k ≤ 29 ∧ (fat_time_t.ctor 21440).sec = 2 * k) ∧
    (fat_time_t.ctor 21440).min ≤ 63 ∧ (fat_time_t.ctor 21440).hour ≤ 31 ∧
    (fat_time_t.ctor 21440).min = (21440 >>> 5) &&& 0x3F ∧
    (fat_time_t.ctor 21440).hour = 21440 >>> 11 :=
  C11_time_component_ranges 21440 (by decide)

/-- C14: when byte 0 of the name field is `0x00`, `get_dir_entry_name` returns
the empty string, whatever the other bytes are. -/
theorem C14_name_of_unused_slot (entry_name : List Nat) (h : entry_name.getD 0 0 = 0) :
    get_dir_entry_name entry_name = [] := by
  simp only [get_dir_entry_name, h, if_true]

/-- Witness of C14 at the field `00 "OO     TXT"`. -/
theorem C14_name_of_unused_slot_witness :
    (0 :: bytesOf "OO     TXT").getD 0 0 = 0 ∧
    get_dir_entry_name (0 :: bytesOf "OO     TXT") = [] :=
  ⟨rfl, C14_name_of_unused_slot (0 :: bytesOf "OO     TXT") rfl⟩

/-- C15: `get_dir_entry_identifier a` is the slash exactly when bit `0x08` of
`a` is set and the space otherwise; the result depends on `a` only through
`a & 0x08`; the directory bit `0x10` alone gives the space. -/
theorem C15_kind_character (a : Nat) :
    (get_dir_entry_identifier a = 0x2F ↔ a &&& 0x08 ≠ 0) ∧
    (get_dir_entry_identifier a = 0x20 ↔ a &&& 0x08 = 0) ∧
    (a &&& 0x08 ≠ 0 ↔ a.testBit 3 = true) ∧
    get_dir_entry_identifier a = get_dir_entry_identifier (a &&& 0x08) ∧
    get_dir_entry_identifier 0x08 = 0x2F ∧ get_dir_entry_identifier 0x10 = 0x20 ∧
    get_dir_entry_identifier 0x18 = 0x2F := by
  have h8 : (a &&& 0x08) &&& 0x08 = a &&& 0x08 := by
    rw [Nat.and_assoc, Nat.and_self]
  have hb : a &&& 0x08 = 0 ↔ a.testBit 3 = false := and_two_pow_eq_zero_iff a 3
  have hi : get_dir_entry_identifier a = if a &&& 0x08 ≠ 0 then 0x2F else 0x20 := rfl
  refine ⟨?_, ?_, ?_, ?_, by decide, by decide, by decide⟩
  · by_cases h : a &&& 0x08 = 0
    · rw [hi, if_neg (not_not.mpr h)]
      exact ⟨fun hc => absurd hc (by decide), fun hc => absurd h hc⟩
    · rw [hi, if_pos h]
      exact ⟨fun _ => h, fun _ => rfl⟩
  · by_cases h : a &&& 0x08 = 0
    · rw [hi, if_neg (not_not.mpr h)]
      exact ⟨fun _ => h, fun _ => rfl⟩
    · rw [hi, if_pos h]
      exact ⟨fun hc => absurd hc (by decide), fun hc => absurd hc h⟩
  · rw [Ne, hb]
    cases a.testBit 3 <;> simp
  · have hi8 : get_dir_entry_identifier (a &&& 0x08) =
        if (a &&& 0x08) &&& 0x08 ≠ 0 then 0x2F else 0x20 := rfl
    rw [hi, hi8, h8]

/-- C17 (as stated, refuted): for the field `05 "XYZ    TXT"` the result is not
`0xE5` followed by `YZ.TXT`. -/
theorem C17_counterexample_xyz :
    get_dir_entry_name (0x05 :: bytesOf "XYZ    TXT") ≠ 0xE5 :: bytesOf "YZ.TXT" := by
  decide

/-- C17 (amended): for the field `05 "XYZ    TXT"` the result is `0xE5` followed
by `XYZ.TXT`: only byte 0 is replaced, the bytes `X`, `Y`, `Z` that follow it
are kept.  (`0xE5` followed by `YZ.TXT` is the result for `05 "YZ     TXT"`.) -/
theorem C17_name_with_sentinel_first_byte :
    (0x05 :: bytesOf "XYZ    TXT").length = 11 ∧
    get_dir_entry_name (0x05 :: bytesOf "XYZ    TXT") = 0xE5 :: bytesOf "XYZ.TXT" ∧
    get_dir_entry_name (0x05 :: bytesOf "YZ     TXT") = 0xE5 :: bytesOf "YZ.TXT" := by
  decide

/-- C19: for `fatCount <= 2`, `bytesPerSector <= 4096` and a 16-bit
`sectorsPerFat16`, both `int` products fit an `int`, the sum with 512 stays
below `2 ^ 32`, and the offset computed by `main` is the exact integer
`512 + fatCount * sectorsPerFat16 * bytesPerSector`. -/
theorem C19_offset_without_overflow (f s b : Nat) (hf : f ≤ 2) (hs : s < 2 ^ 16)
    (hb : b ≤ 4096) :
    f * s ≤ INT_MAX ∧ f * s * b ≤ INT_MAX ∧ 512 + f * s * b < 2 ^ 32 ∧
    int_mul f s = some (f * s) ∧ int_mul (f * s) b = some (f * s * b) ∧
    root_dir_offset f s b = some (512 + f * s * b) := by
  have h1 : f * s ≤ 2 * 65535 := Nat.mul_le_mul hf (by omega)
  have h2 : f * s * b ≤ 2 * 65535 * 4096 := Nat.mul_le_mul h1 hb
  have h3 : f * s ≤ INT_MAX := le_trans h1 (by decide)
  have h4 : f * s * b ≤ INT_MAX := le_trans h2 (by decide)
  have h5 : 512 + f * s * b < 2 ^ 32 := by
    have : 512 + f * s * b ≤ 512 + 2 * 65535 * 4096 := Nat.add_le_add_left h2 512
    exact lt_of_le_of_lt this (by decide)
  refine ⟨h3, h4, h5, ?_, ?_, root_dir_offset_eq f s b (by omega) hs h4⟩
  · simp only [int_mul, h3, if_true]
  · simp only [int_mul, h4, if_true]

/-- Witness of C19 at `fatCount = 2`, `sectorsPerFat16 = 65535`,
`bytesPerSector = 4096`, the largest values allowed. -/
theorem C19_offset_without_overflow_witness :
    (2 ≤ 2 ∧ 65535 < 2 ^ 16 ∧ 4096 ≤ 4096) ∧
    root_dir_offset 2 65535 4096 = some (512 + 2 * 65535 * 4096) :=
  ⟨by decide,
    (C19_offset_without_overflow 2 65535 4096 (by decide) (by decide) (by decide)).2.2.2.2.2⟩

/-! ## The boot record and its signature -/

theorem print_fat_boot_record_info_eq (mem : List Byte) (hlen : 512 ≤ mem.length) :
    print_fat_boot_record_info mem = some
      { sector_size := bytesPerSector_of mem
        sectors_per_cluster := sectorsPerCluster_of mem
        fat_copy_number := fatCount_of mem
        fat_copy_size_in_bytes := int_mul (sectorsPerFat16_of mem) (bytesPerSector_of mem)
        fat_copy_size_in_sectors := sectorsPerFat16_of mem
        root_directory_size := rootDirEntryCount_of mem
        root_directory_entry_count := rootDirEntryCount_of mem
        reserved_sectors_count := reservedSectorCount_of mem
        check_signature :=
          if bootSectorSig0_of mem = 0x55 ∧ bootSectorSig1_of mem = 0xAA then bytesOf "correct"
          else bytesOf "incorrect" } := by
  have o1 : offsetof_packed fat_boot "bytesPerSector" = 11 := by decide
  have o2 : offsetof_packed fat_boot "sectorsPerCluster" = 13 := by decide
  have o3 : offsetof_packed fat_boot "fatCount" = 16 := by decide
  have o4 : offsetof_packed fat_boot "sectorsPerFat16" = 22 := by decide
  have o5 : offsetof_packed fat_boot "rootDirEntryCount" = 17 := by decide
  have o6 : offsetof_packed fat_boot "reservedSectorCount" = 14 := by decide
  have o7 : offsetof_packed fat_boot "bootSectorSig0" = 510 := by decide
  have o8 : offsetof_packed fat_boot "bootSectorSig1" = 511 := by decide
  have r1 := read_u16_some mem 11 (by omega)
  have r2 := read_u8_some mem 13 (by omega)
  have r3 := read_u8_some mem 16 (by omega)
  have r4 := read_u16_some mem 22 (by omega)
  have r5 := read_u16_some mem 17 (by omega)
  have r6 := read_u16_some mem 14 (by omega)
  have r7 := read_u8_some mem 510 (by omega)
  have r8 := read_u8_some mem 511 (by omega)
  simp only [bytesPerSector_of, sectorsPerCluster_of, fatCount_of, sectorsPerFat16_of,
    rootDirEntryCount_of, reservedSectorCount_of, bootSectorSig0_of, bootSectorSig1_of,
    o1, o2, o3, o4, o5, o6, o7, o8]
  unfold print_fat_boot_record_info
  rw [o1, o2, o3, o4, o5, o6, o7, o8, r1, r2, r3, r4, r5, r6, r7, r8]
  simp only [Option.bind_eq_bind, Option.some_bind, Option.map_some', Option.getD_some]
  by_cases h0 : (read_u8 mem 510).getD 0 = 0x55
  · by_cases h1 : (read_u8 mem 511).getD 0 = 0xAA
    · simp [h0, h1]
    · simp [h0, h1]
  · simp [h0]

theorem main_eq_print_then_lines (fs_bin : List Byte) :
    main fs_bin =
      (print_fat_boot_record_info fs_bin).bind
        (fun info => (root_dir_lines fs_bin).map (fun lines => (info, lines))) := by
  unfold main root_dir_lines
  cases print_fat_boot_record_info fs_bin with
  | none => rfl
  | some info =>
    simp only [Option.bind_eq_bind, Option.some_bind]
    cases read_u8 fs_bin (offsetof_packed fat_boot "fatCount") with
    | none => rfl
    | some f =>
      simp only [Option.some_bind]
      cases read_u16 fs_bin (offsetof_packed fat_boot "sectorsPerFat16") with
      | none => rfl
      | some sp =>
        simp only [Option.some_bind]
        cases read_u16 fs_bin (offsetof_packed fat_boot "bytesPerSector") with
        | none => rfl
        | some bp =>
          simp only [Option.some_bind]
          cases root_dir_offset f sp bp with
          | none => rfl
          | some d =>
            simp only [Option.some_bind]
            cases read_u16 fs_bin (offsetof_packed fat_boot "rootDirEntryCount") with
            | none => rfl
            | some n =>
              simp only [Option.some_bind]
              cases scan_root_dir fs_bin n d <;> rfl

theorem length_with_signature (mem : List Byte) (x y : Byte) :
    (with_signature mem x y).length = mem.length := by
  simp only [with_signature, List.length_set]

theorem read_u8_with_signature (mem : List Byte) (x y : Byte) (a : Nat)
    (h : a < 510 ∨ 512 ≤ a) : read_u8 (with_signature mem x y) a = read_u8 mem a := by
  have h1 : 511 ≠ a := by omega
  have h2 : 510 ≠ a := by omega
  simp only [read_u8, with_signature, List.getElem?_set_ne h1, List.getElem?_set_ne h2]

theorem read_u16_with_signature (mem : List Byte) (x y : Byte) (a : Nat)
    (h : a + 1 < 510 ∨ 512 ≤ a) : read_u16 (with_signature mem x y) a = read_u16 mem a := by
  simp only [read_u16, read_u8_with_signature mem x y a (by omega),
    read_u8_with_signature mem x y (a + 1) (by omega)]

theorem read_u32_with_signature (mem : List Byte) (x y : Byte) (a : Nat)
    (h : a + 3 < 510 ∨ 512 ≤ a) : read_u32 (with_signature mem x y) a = read_u32 mem a := by
  simp only [read_u32, read_u16_with_signature mem x y a (by omega),
    read_u16_with_signature mem x y (a + 2) (by omega)]

theorem read_bytes_with_signature (mem : List Byte) (x y : Byte) (count a : Nat)
    (h : 512 ≤ a) : read_bytes (with_signature mem x y) a count = read_bytes mem a count := by
  induction count generalizing a with
  | zero => rfl
  | succ c ih =>
    rw [read_bytes, read_bytes, ih (a + 1) (by omega),
      read_u8_with_signature mem x y a (by omega)]

theorem print_dir_entry_with_signature (mem : List Byte) (x y : Byte) (p : Nat)
    (h : 512 ≤ p) : print_dir_entry (with_signature mem x y) p = print_dir_entry mem p := by
  have o1 : offsetof_packed directoryEntry "attributes" = 11 := by decide
  have o2 : offsetof_packed directoryEntry "fileSize" = 28 := by decide
  have o3 : offsetof_packed directoryEntry "lastWriteDate" = 24 := by decide
  have o4 : offsetof_packed directoryEntry "lastWriteTime" = 22 := by decide
  have o5 : offsetof_packed directoryEntry "firstClusterLow" = 26 := by decide
  have o6 : offsetof_packed directoryEntry "name" = 0 := by decide
  have o7 : offsetof_packed fat_boot "sectorsPerCluster" = 13 := by decide
  simp only [print_dir_entry, o1, o2, o3, o4, o5, o6, o7,
    read_u8_with_signature mem x y (p + 11) (by omega),
    read_u32_with_signature mem x y (p + 28) (by omega),
    read_u16_with_signature mem x y (p + 24) (by omega),
    read_u16_with_signature mem x y (p + 22) (by omega),
    read_u16_with_signature mem x y (p + 26) (by omega),
    read_u8_with_signature mem x y 13 (by omega),
    read_bytes_with_signature mem x y 11 (p + 0) (by omega)]

theorem scan_root_dir_with_signature (mem : List Byte) (x y : Byte) (n p : Nat)
    (h : 512 ≤ p) :
    scan_root_dir (with_signature mem x y) n p = scan_root_dir mem n p := by
  have o1 : offsetof_packed directoryEntry "name" = 0 := by decide
  induction n generalizing p with
  | zero => rfl
  | succ k ih =>
    rw [scan_root_dir, scan_root_dir, o1, ih _ (by omega),
      read_u8_with_signature mem x y (p + 0) (by omega),
      print_dir_entry_with_signature mem x y p h]

theorem root_dir_offset_ge (f sp bp d : Nat) (h : root_dir_offset f sp bp = some d) :
    512 ≤ d := by
  unfold root_dir_offset at h
  cases h1 : int_mul f sp with
  | none => simp [h1] at h
  | some q =>
    cases h2 : int_mul q bp with
    | none => simp [h1, h2] at h
    | some r =>
      simp only [h1, h2, Option.bind_eq_bind, Option.some_bind, Option.some.injEq] at h
      omega

theorem root_dir_lines_with_signature (mem : List Byte) (x y : Byte) :
    root_dir_lines (with_signature mem x y) = root_dir_lines mem := by
  have o1 : offsetof_packed fat_boot "bytesPerSector" = 11 := by decide
  have o3 : offsetof_packed fat_boot "fatCount" = 16 := by decide
  have o4 : offsetof_packed fat_boot "sectorsPerFat16" = 22 := by decide
  have o5 : offsetof_packed fat_boot "rootDirEntryCount" = 17 := by decide
  simp only [root_dir_lines, o1, o3, o4, o5, read_u8_with_signature mem x y 16 (by omega),
    read_u16_with_signature mem x y 22 (by omega), read_u16_with_signature mem x y 11 (by omega),
    read_u16_with_signature mem x y 17 (by omega), Option.bind_eq_bind]
  cases read_u8 mem 16 with
  | none => simp only [Option.none_bind]
  | some f =>
    simp only [Option.some_bind]
    cases read_u16 mem 22 with
    | none => simp only [Option.none_bind]
    | some sp =>
      simp only [Option.some_bind]
      cases read_u16 mem 11 with
      | none => simp only [Option.none_bind]
      | some bp =>
        simp only [Option.some_bind]
        cases hd : root_dir_offset f sp bp with
        | none => simp only [Option.none_bind]
        | some d =>
          simp only [Option.some_bind]
          cases read_u16 mem 17 with
          | none => simp only [Option.none_bind]
          | some n =>
            simp only [Option.some_bind]
            exact scan_root_dir_with_signature mem x y n d (root_dir_offset_ge f sp bp d hd)

theorem boot_fields_with_signature (mem : List Byte) (x y : Byte) :
    bytesPerSector_of (with_signature mem x y) = bytesPerSector_of mem ∧
    sectorsPerCluster_of (with_signature mem x y) = sectorsPerCluster_of mem ∧
    fatCount_of (with_signature mem x y) = fatCount_of mem ∧
    sectorsPerFat16_of (with_signature mem x y) = sectorsPerFat16_of mem ∧
    rootDirEntryCount_of (with_signature mem x y) = rootDirEntryCount_of mem ∧
    reservedSectorCount_of (with_signature mem x y) = reservedSectorCount_of mem := by
  have o1 : offsetof_packed fat_boot "bytesPerSector" = 11 := by decide
  have o2 : offsetof_packed fat_boot "sectorsPerCluster" = 13 := by decide
  have o3 : offsetof_packed fat_boot "fatCount" = 16 := by decide
  have o4 : offsetof_packed fat_boot "sectorsPerFat16" = 22 := by decide
  have o5 : offsetof_packed fat_boot "rootDirEntryCount" = 17 := by decide
  have o6 : offsetof_packed fat_boot "reservedSectorCount" = 14 := by decide
  simp only [bytesPerSector_of, sectorsPerCluster_of, fatCount_of, sectorsPerFat16_of,
    rootDirEntryCount_of, reservedSectorCount_of, o1, o2, o3, o4, o5, o6,
    read_u8_with_signature mem x y 16 (by omega), read_u8_with_signature mem x y 13 (by omega),
    read_u16_with_signature mem x y 22 (by omega), read_u16_with_signature mem x y 11 (by omega),
    read_u16_with_signature mem x y 17 (by omega), read_u16_with_signature mem x y 14 (by omega),
    and_self]

theorem print_without_signature (mem : List Byte) (x y : Byte) (hlen : 512 ≤ mem.length) :
    (print_fat_boot_record_info (with_signature mem x y)).map without_signature =
      (print_fat_boot_record_info mem).map without_signature := by
  have f := boot_fields_with_signature mem x y
  rw [print_fat_boot_record_info_eq mem hlen,
    print_fat_boot_record_info_eq (with_signature mem x y)
      (by rw [length_with_signature]; exact hlen),
    f.1, f.2.1, f.2.2.1, f.2.2.2.1, f.2.2.2.2.1, f.2.2.2.2.2]
  rfl

theorem main_without_signature (mem : List Byte) (x y : Byte) (hlen : 512 ≤ mem.length) :
    (main (with_signature mem x y)).map output_without_signature =
      (main mem).map output_without_signature := by
  have hp := print_without_signature mem x y hlen
  rw [main_eq_print_then_lines, main_eq_print_then_lines, root_dir_lines_with_signature]
  cases h1 : print_fat_boot_record_info (with_signature mem x y) with
  | none =>
    rw [print_fat_boot_record_info_eq _ (by rw [length_with_signature]; exact hlen)] at h1
    exact absurd h1 (by simp)
  | some i1 =>
    cases h2 : print_fat_boot_record_info mem with
    | none =>
      rw [print_fat_boot_record_info_eq _ hlen] at h2
      exact absurd h2 (by simp)
    | some i2 =>
      rw [h1, h2] at hp
      simp only [Option.map_some', Option.some.injEq] at hp
      cases root_dir_lines mem with
      | none => rfl
      | some lines =>
        simp only [Option.some_bind, Option.map_some', output_without_signature, hp]

theorem read_signature_with_signature (mem : List Byte) (x y : Byte) (hlen : 512 ≤ mem.length) :
    read_u8 (with_signature mem x y) 510 = some x.val ∧
    read_u8 (with_signature mem x y) 511 = some y.val := by
  have h0 : 510 < mem.length := by omega
  have h1 : 511 < (mem.set 510 x).length := by rw [List.length_set]; omega
  constructor
  · simp only [read_u8, with_signature, List.getElem?_set_ne (show 511 ≠ 510 by decide),
      List.getElem?_set_self h0, Option.map_some']
  · simp only [read_u8, with_signature, List.getElem?_set_self h1, Option.map_some']

/-- C16: `fat_boot` is 512 bytes with the two signature members at bytes 510
and 511; for every buffer of at least 512 bytes the boot record is printed, its
signature line is `correct` exactly when byte 510 is `0x55` and byte 511 is
`0xAA`, and `incorrect` otherwise; replacing the two signature bytes by any
values changes neither the other boot-record values nor the directory scan. -/
theorem C16_boot_signature (mem : List Byte) (hlen : 512 ≤ mem.length) :
    sizeof_packed fat_boot = 512 ∧
    offsetof_packed fat_boot "bootSectorSig0" = 510 ∧
    offsetof_packed fat_boot "bootSectorSig1" = 511 ∧
    (∃ info, print_fat_boot_record_info mem = some info ∧
      (info.check_signature = bytesOf "correct" ↔
        read_u8 mem 510 = some 0x55 ∧ read_u8 mem 511 = some 0xAA) ∧
      (info.check_signature ≠ bytesOf "correct" →
        info.check_signature = bytesOf "incorrect")) ∧
    (∀ x y : Byte,
      read_u8 (with_signature mem x y) 510 = some x.val ∧
      read_u8 (with_signature mem x y) 511 = some y.val ∧
      (print_fat_boot_record_info (with_signature mem x y)).map without_signature =
        (print_fat_boot_record_info mem).map without_signature ∧
      (main (with_signature mem x y)).map output_without_signature =
        (main mem).map output_without_signature) := by
  have o7 : offsetof_packed fat_boot "bootSectorSig0" = 510 := by decide
  have o8 : offsetof_packed fat_boot "bootSectorSig1" = 511 := by decide
  have r7 := read_u8_some mem 510 (by omega)
  have r8 := read_u8_some mem 511 (by omega)
  have hne : bytesOf "incorrect" ≠ bytesOf "correct" := by decide
  refine ⟨by decide, o7, o8, ⟨_, print_fat_boot_record_info_eq mem hlen, ?_, ?_⟩, ?_⟩
  · simp only [bootSectorSig0_of, bootSectorSig1_of, o7, o8]
    rw [r7, r8]
    simp only [Option.getD_some, Option.some.injEq]
    by_cases hc : (read_u8 mem 510).getD 0 = 0x55 ∧ (read_u8 mem 511).getD 0 = 0xAA
    · rw [if_pos hc]
      exact ⟨fun _ => hc, fun _ => rfl⟩
    · rw [if_neg hc]
      exact ⟨fun h => absurd h hne, fun h => absurd h hc⟩
  · intro hnc
    by_cases hc : bootSectorSig0_of mem = 0x55 ∧ bootSectorSig1_of mem = 0xAA
    · simp only [if_pos hc] at hnc
      exact absurd rfl hnc
    · simp only [if_neg hc]
  · intro x y
    have hs := read_signature_with_signature mem x y hlen
    exact ⟨hs.1, hs.2, print_without_signature mem x y hlen, main_without_signature mem x y hlen⟩

/-- Witness of C16 on the boot sector of the end-to-end volume. -/
theorem C16_boot_signature_witness :
    512 ≤ (boot_sector_image 512 4 1 2 16 4).length ∧
    ∃ info, print_fat_boot_record_info (boot_sector_image 512 4 1 2 16 4) = some info ∧
      (info.check_signature = bytesOf "correct" ↔
        read_u8 (boot_sector_image 512 4 1 2 16 4) 510 = some 0x55 ∧
        read_u8 (boot_sector_image 512 4 1 2 16 4) 511 = some 0xAA) ∧
      (info.check_signature ≠ bytesOf "correct" →
        info.check_signature = bytesOf "incorrect") :=
  have hlen : 512 ≤ (boot_sector_image 512 4 1 2 16 4).length := by decide!
  ⟨hlen, (C16_boot_signature (boot_sector_image 512 4 1 2 16 4) hlen).2.2.2.1⟩

/-! ## The name buffer: `strchr`, the cut at the first space, C strings -/

theorem strchr_scan_shift (c : Nat) (l : List Nat) (i : Nat) :
    strchr_scan c l i = (strchr_scan c l 0).map (fun k => k + i) := by
  induction l generalizing i with
  | nil => rfl
  | cons b rest ih =>
    simp only [strchr_scan]
    by_cases hc : b = c
    · simp [hc]
    · by_cases hz : b = 0
      · simp [hc, hz]
      · simp only [hc, hz, if_false]
        rw [ih (i + 1), ih (0 + 1), Option.map_map]
        congr 1
        funext k
        simp only [Function.comp_apply]
        omega

theorem cut_at_space_nil : cut_at_space [] = [] := rfl

theorem cut_at_space_cons (b : Nat) (l : List Nat) :
    cut_at_space (b :: l) =
      if b = 0x20 then 0 :: l else if b = 0 then b :: l else b :: cut_at_space l := by
  unfold cut_at_space
  simp only [strchr_scan]
  by_cases hc : b = 0x20
  · simp [hc]
  · by_cases hz : b = 0
    · simp [hz]
    · simp only [hc, hz, if_false]
      rw [strchr_scan_shift 0x20 l (0 + 1)]
      cases strchr_scan 0x20 l 0 with
      | none => rfl
      | some k => rfl

theorem length_cut_at_space (l : List Nat) : (cut_at_space l).length = l.length := by
  unfold cut_at_space
  cases strchr_scan 0x20 l 0 with
  | none => rfl
  | some k => simp only [List.length_set]

theorem c_str_cut_at_space (l : List Nat) :
    (cut_at_space l).takeWhile (fun b => b ≠ 0) = before_space_or_nul l := by
  induction l with
  | nil => rfl
  | cons b rest ih =>
    rw [cut_at_space_cons]
    unfold before_space_or_nul at ih ⊢
    by_cases hc : b = 0x20
    · simp [hc]
    · by_cases hz : b = 0
      · simp [hz]
      · simp only [hc, hz, if_false, List.takeWhile_cons, ne_eq, not_false_eq_true, and_self,
          decide_True, if_true, ih]

theorem before_space_or_nul_cut (l : List Nat) :
    before_space_or_nul (cut_at_space l) = before_space_or_nul l := by
  induction l with
  | nil => rfl
  | cons b rest ih =>
    rw [cut_at_space_cons]
    unfold before_space_or_nul at ih ⊢
    by_cases hc : b = 0x20
    · simp [hc]
    · by_cases hz : b = 0
      · simp [hz]
      · simp only [hc, hz, if_false, List.takeWhile_cons, ne_eq, not_false_eq_true, and_self,
          decide_True, if_true, ih]

theorem cut_at_space_append_clean (a l : List Nat) (h : no_space_or_nul a = true) :
    cut_at_space (a ++ l) = a ++ cut_at_space l := by
  induction a with
  | nil => rfl
  | cons b rest ih =>
    simp only [no_space_or_nul, List.all_cons, Bool.and_eq_true, decide_eq_true_eq] at h
    rw [List.cons_append, cut_at_space_cons, if_neg h.1.1, if_neg h.1.2,
      ih (by simpa [no_space_or_nul] using h.2), List.cons_append]

theorem cut_at_space_append_dirty (a l : List Nat) (h : no_space_or_nul a = false) :
    cut_at_space (a ++ l) = cut_at_space a ++ l := by
  induction a with
  | nil => simp [no_space_or_nul] at h
  | cons b rest ih =>
    rw [List.cons_append, cut_at_space_cons, cut_at_space_cons]
    by_cases hc : b = 0x20
    · simp [hc]
    · by_cases hz : b = 0
      · simp [hz]
      · have hr : no_space_or_nul rest = false := by
          simp only [no_space_or_nul, List.all_cons, hc, hz, ne_eq, not_false_eq_true,
            and_self, decide_True, Bool.true_and] at h
          exact h
        simp only [hc, hz, if_false, ih hr, List.cons_append]

theorem before_space_or_nul_append_clean (a l : List Nat) (h : no_space_or_nul a = true) :
    before_space_or_nul (a ++ l) = a ++ before_space_or_nul l := by
  induction a with
  | nil => rfl
  | cons b rest ih =>
    simp only [no_space_or_nul, List.all_cons, Bool.and_eq_true, decide_eq_true_eq] at h
    have ih' := ih (by simpa [no_space_or_nul] using h.2)
    unfold before_space_or_nul at ih' ⊢
    simp only [List.cons_append, List.takeWhile_cons, h.1, ne_eq, not_false_eq_true, and_self,
      decide_True, if_true, ih']

theorem before_space_or_nul_append_dirty (a l : List Nat) (h : no_space_or_nul a = false) :
    before_space_or_nul (a ++ l) = before_space_or_nul a := by
  induction a with
  | nil => simp [no_space_or_nul] at h
  | cons b rest ih =>
    by_cases hb : b ≠ 0x20 ∧ b ≠ 0
    · have hr : no_space_or_nul rest = false := by
        simp only [no_space_or_nul, List.all_cons, hb, ne_eq, not_false_eq_true, and_self,
          decide_True, Bool.true_and] at h
        exact h
      have ih' := ih hr
      unfold before_space_or_nul at ih' ⊢
      simp only [List.cons_append, List.takeWhile_cons, hb, ne_eq, not_false_eq_true, and_self,
        decide_True, if_true, ih']
    · unfold before_space_or_nul
      simp only [List.cons_append, List.takeWhile_cons, hb, decide_False]
      rfl

theorem before_space_or_nul_append_nul (x l : List Nat) :
    before_space_or_nul (x ++ 0 :: l) = before_space_or_nul x := by
  induction x with
  | nil => simp [before_space_or_nul]
  | cons b rest ih =>
    unfold before_space_or_nul at ih ⊢
    by_cases hb : b ≠ 0x20 ∧ b ≠ 0
    · simp only [List.cons_append, List.takeWhile_cons, hb, ne_eq, not_false_eq_true, and_self,
        decide_True, if_true, ih]
    · simp only [List.cons_append, List.takeWhile_cons, hb, decide_False]
      rfl

theorem not_mem_before_space_or_nul (l : List Nat) :
    0x20 ∉ before_space_or_nul l ∧ 0 ∉ before_space_or_nul l := by
  unfold before_space_or_nul
  constructor
  · intro h
    have := List.mem_takeWhile_imp h
    simp at this
  · intro h
    have := List.mem_takeWhile_imp h
    simp at this

theorem get_dir_entry_name_eq_buffer (entry_name : List Nat) :
    get_dir_entry_name entry_name =
      if entry_name.getD 0 0 = 0 then []
      else name_from_buffer
        (if (entry_name.take 11 ++ [0]).getD 0 0 = 0x05 then (entry_name.take 11 ++ [0]).set 0 0xE5
         else entry_name.take 11 ++ [0]) := rfl

theorem c_str_drop_cut (a l : List Nat) (ha : a.length = 8) :
    c_str (cut_at_space (a ++ cut_at_space l)) 8 = before_space_or_nul l := by
  unfold c_str
  cases h : no_space_or_nul a with
  | true =>
    rw [cut_at_space_append_clean a _ h, List.drop_left' ha, c_str_cut_at_space,
      before_space_or_nul_cut]
  | false =>
    rw [cut_at_space_append_dirty a _ h,
      List.drop_left' (by rw [length_cut_at_space]; exact ha), c_str_cut_at_space]

theorem name_from_buffer_append (a l : List Nat) (ha : a.length = 8) :
    name_from_buffer (a ++ l) =
      if strchr_scan 0x20 l 0 = some 0 then before_space_or_nul (a ++ cut_at_space l)
      else before_space_or_nul (a ++ cut_at_space l) ++ [0x2E] ++ before_space_or_nul l := by
  have hstep : (match strchr (a ++ l) 8 0x20 with
      | some tmp_p => ((a ++ l).set tmp_p 0, !(tmp_p == 8))
      | none => (a ++ l, true)) =
      (a ++ cut_at_space l, !(strchr_scan 0x20 l 0 == some 0)) := by
    unfold strchr cut_at_space
    rw [List.drop_left' ha, strchr_scan_shift]
    cases strchr_scan 0x20 l 0 with
    | none => rfl
    | some k =>
      simp only [Option.map_some']
      rw [List.set_append_right _ _ (by omega)]
      simp [ha]
  have hcut : ∀ r : List Nat, (match strchr r 0 0x20 with
      | some tmp_p => r.set tmp_p 0
      | none => r) = cut_at_space r := by
    intro r
    unfold strchr cut_at_space
    rw [List.drop_zero]
  unfold name_from_buffer
  simp only [hstep, hcut, c_str_drop_cut a l ha]
  have h0 : c_str (cut_at_space (a ++ cut_at_space l)) 0 =
      before_space_or_nul (a ++ cut_at_space l) := by
    unfold c_str
    rw [List.drop_zero, c_str_cut_at_space]
  rw [h0]
  by_cases hk : strchr_scan 0x20 l 0 = some 0
  · simp [hk]
  · simp [hk]


theorem exists_of_length_eleven (l : List Nat) (h : l.length = 11) :
    ∃ a0 a1 a2 a3 a4 a5 a6 a7 e0 e1 e2, l = [a0, a1, a2, a3, a4, a5, a6, a7, e0, e1, e2] := by
  match l, h with
  | [a0, a1, a2, a3, a4, a5, a6, a7, e0, e1, e2], _ =>
    exact ⟨a0, a1, a2, a3, a4, a5, a6, a7, e0, e1, e2, rfl⟩

theorem before_space_or_nul_clean (a : List Nat) (h : no_space_or_nul a = true) :
    before_space_or_nul a = a := by
  have := before_space_or_nul_append_clean a [] h
  rw [List.append_nil] at this
  rw [this]
  simp [before_space_or_nul]

theorem length_name_base (field : List Nat) (hlen : field.length = 11) :
    (name_base field).length = 8 := by
  unfold name_base
  split <;> simp [hlen]

theorem name_buffer_eq (field : List Nat) (hlen : field.length = 11) :
    (if (field.take 11 ++ [0]).getD 0 0 = 0x05 then (field.take 11 ++ [0]).set 0 0xE5
      else field.take 11 ++ [0]) = name_base field ++ (name_ext field ++ [0]) := by
  obtain ⟨a0, a1, a2, a3, a4, a5, a6, a7, e0, e1, e2, rfl⟩ := exists_of_length_eleven field hlen
  by_cases h : a0 = 0x05
  · simp [name_base, name_ext, h]
  · simp [name_base, name_ext, h]

theorem strchr_scan_head (x : List Nat) (hx : x ≠ []) :
    strchr_scan 0x20 (x ++ [0]) 0 = some 0 ↔ x.head? = some 0x20 := by
  cases x with
  | nil => exact absurd rfl hx
  | cons b rest =>
    simp only [List.cons_append, strchr_scan, List.head?_cons, Option.some.injEq]
    by_cases hc : b = 0x20
    · simp [hc]
    · by_cases hz : b = 0
      · simp [hz]
      · simp only [hc, hz, if_false, iff_false]
        rw [strchr_scan_shift]
        cases strchr_scan 0x20 (rest ++ [0]) 0 with
        | none => simp
        | some k => simp

theorem before_space_or_nul_head_space (x : List Nat) (h : x.head? = some 0x20) :
    before_space_or_nul x = [] := by
  cases x with
  | nil => rfl
  | cons b rest =>
    simp only [List.head?_cons, Option.some.injEq] at h
    simp [before_space_or_nul, h]

theorem get_dir_entry_name_eq (field : List Nat) (hlen : field.length = 11)
    (h0 : field.getD 0 0 ≠ 0) :
    get_dir_entry_name field =
      if (name_ext field).head? = some 0x20 then before_space_or_nul (name_base field)
      else
        (if no_space_or_nul (name_base field) = true then
            name_base field ++ before_space_or_nul (name_ext field)
          else before_space_or_nul (name_base field))
          ++ [0x2E] ++ before_space_or_nul (name_ext field) := by
  have hx : name_ext field ≠ [] := by
    intro h
    have : (name_ext field).length = 3 := by simp [name_ext, hlen]
    rw [h] at this
    exact absurd this (by decide)
  have hE : before_space_or_nul (name_ext field ++ [0]) = before_space_or_nul (name_ext field) :=
    before_space_or_nul_append_nul (name_ext field) []
  rw [get_dir_entry_name_eq_buffer, if_neg h0, name_buffer_eq field hlen,
    name_from_buffer_append _ _ (length_name_base field hlen), hE]
  have hbase : before_space_or_nul (name_base field ++ cut_at_space (name_ext field ++ [0])) =
      if no_space_or_nul (name_base field) = true then
        name_base field ++ before_space_or_nul (name_ext field)
      else before_space_or_nul (name_base field) := by
    cases hc : no_space_or_nul (name_base field) with
    | true =>
      rw [before_space_or_nul_append_clean _ _ hc, before_space_or_nul_cut, hE]
      rfl
    | false =>
      rw [before_space_or_nul_append_dirty _ _ hc]
      rfl
  rw [hbase]
  by_cases hs : (name_ext field).head? = some 0x20
  · rw [if_pos ((strchr_scan_head _ hx).mpr hs), if_pos hs]
    cases hc : no_space_or_nul (name_base field) with
    | true =>
      rw [if_pos rfl, before_space_or_nul_head_space _ hs, List.append_nil,
        before_space_or_nul_clean _ hc]
    | false => rfl
  · rw [if_neg (fun h => hs ((strchr_scan_head _ hx).mp h)), if_neg hs]


/-! ## Claims on names -/

theorem name_ext_head (field : List Nat) (hlen : field.length = 11) :
    (name_ext field).head? = some (field.getD 8 0) := by
  obtain ⟨a0, a1, a2, a3, a4, a5, a6, a7, e0, e1, e2, rfl⟩ := exists_of_length_eleven field hlen
  rfl

theorem name_base_cons (field : List Nat) (hlen : field.length = 11) :
    name_base field =
      (if field.getD 0 0 = 0x05 then 0xE5 else field.getD 0 0) :: (field.take 8).drop 1 := by
  obtain ⟨a0, a1, a2, a3, a4, a5, a6, a7, e0, e1, e2, rfl⟩ := exists_of_length_eleven field hlen
  by_cases h : a0 = 0x05
  · simp [name_base, h]
  · simp [name_base, h]

theorem name_base_of_ne (field : List Nat) (h : field.getD 0 0 ≠ 0x05) :
    name_base field = field.take 8 := by
  unfold name_base
  have : (field.take 8).getD 0 0 = field.getD 0 0 := by
    cases field with
    | nil => rfl
    | cons b rest => rfl
  rw [this, if_neg h]

theorem before_space_or_nul_of_no_nul (l : List Nat) (h : ∀ b ∈ l, b ≠ 0) :
    before_space_or_nul l = l.takeWhile (fun b => b ≠ 0x20) := by
  induction l with
  | nil => rfl
  | cons b rest ih =>
    have hb : b ≠ 0 := h b (List.mem_cons_self b rest)
    have ih' := ih (fun c hc => h c (List.mem_cons_of_mem b hc))
    unfold before_space_or_nul at ih' ⊢
    by_cases hc : b = 0x20
    · simp [hc]
    · simp only [List.takeWhile_cons, hc, hb, ne_eq, not_false_eq_true, and_self, decide_True,
        if_true, ih']

theorem no_space_or_nul_false_of_mem (l : List Nat) (h : 0x20 ∈ l) :
    no_space_or_nul l = false := by
  unfold no_space_or_nul
  rw [List.all_eq_false]
  exact ⟨0x20, h, by simp⟩

theorem not_mem_of_no_space_or_nul (l : List Nat) (h : no_space_or_nul l = true) :
    0x20 ∉ l := by
  intro hm
  rw [no_space_or_nul_false_of_mem l hm] at h
  exact absurd h (by decide)

theorem mem_name_base_of_mem (field : List Nat) (hlen : field.length = 11)
    (h : 0x20 ∈ field.take 8) : 0x20 ∈ name_base field := by
  by_cases h5 : field.getD 0 0 = 0x05
  · rw [name_base_cons field hlen, if_pos h5]
    have ht : field.take 8 = field.getD 0 0 :: (field.take 8).drop 1 := by
      obtain ⟨a0, a1, a2, a3, a4, a5, a6, a7, e0, e1, e2, rfl⟩ :=
        exists_of_length_eleven field hlen
      rfl
    rw [ht, h5] at h
    rcases List.mem_cons.mp h with h' | h'
    · exact absurd h' (by decide)
    · exact List.mem_cons_of_mem _ h'
  · rw [name_base_of_ne field h5]
    exact h

theorem no_nul_name_base (field : List Nat) (hlen : field.length = 11)
    (h : ∀ b ∈ field, b ≠ 0) : ∀ b ∈ name_base field, b ≠ 0 := by
  intro b hb
  rw [name_base_cons field hlen] at hb
  rcases List.mem_cons.mp hb with h' | h'
  · rw [h']
    split
    · decide
    · apply h
      obtain ⟨a0, a1, a2, a3, a4, a5, a6, a7, e0, e1, e2, rfl⟩ :=
        exists_of_length_eleven field hlen
      exact List.mem_cons_self _ _
  · exact h b (List.mem_of_mem_take (List.mem_of_mem_drop h'))

theorem no_nul_name_ext (field : List Nat) (h : ∀ b ∈ field, b ≠ 0) :
    ∀ b ∈ name_ext field, b ≠ 0 := by
  intro b hb
  exact h b (List.mem_of_mem_drop (List.mem_of_mem_take hb))

theorem takeWhile_eq_nil_iff_head (x : List Nat) (hx : x ≠ []) :
    x.takeWhile (fun b => b ≠ 0x20) = [] ↔ x.head? = some 0x20 := by
  cases x with
  | nil => exact absurd rfl hx
  | cons b rest =>
    by_cases hc : b = 0x20
    · simp [hc]
    · simp [hc]

theorem name_ext_ne_nil (field : List Nat) (hlen : field.length = 11) : name_ext field ≠ [] := by
  intro h
  have : (name_ext field).length = 3 := by simp [name_ext, hlen]
  rw [h] at this
  exact absurd this (by decide)

/-- C12 (as stated, refuted): with a NUL among bytes 0..7 the result stops at
the NUL, not at the first space (`A`, NUL, `B` gives `A`); with byte 0 equal to
`0x05` the result starts with `0xE5`, not with byte 0. -/
theorem C12_counterexample_nul_and_sentinel :
    get_dir_entry_name [0x41, 0, 0x42, 0x20, 0x20, 0x20, 0x20, 0x20, 0x20, 0x20, 0x20] = [0x41] ∧
    base_before_space [0x41, 0, 0x42, 0x20, 0x20, 0x20, 0x20, 0x20, 0x20, 0x20, 0x20] =
      [0x41, 0, 0x42] ∧
    get_dir_entry_name (0x05 :: bytesOf "OO        ") = 0xE5 :: bytesOf "OO" ∧
    base_before_space (0x05 :: bytesOf "OO        ") = 0x05 :: bytesOf "OO" ∧
    get_dir_entry_name (0x05 :: bytesOf "OO        ") ≠
      base_before_space (0x05 :: bytesOf "OO        ") := by
  decide

/-- C12 (amended): for an 11-byte name field whose byte 0 is not `0x00` and
whose byte 8 is a space, `get_dir_entry_name` returns only the base, with no
dot appended: the bytes 0..7, byte 0 read as `0xE5` when it is `0x05`, before
the first space or NUL byte.  When byte 0 is not `0x05` and bytes 0..7 hold no
NUL this is the part of bytes 0..7 before the first space.  `FOO` padded with
spaces gives `FOO`. -/
theorem C12_name_without_extension (field : List Nat) (hlen : field.length = 11)
    (h0 : field.getD 0 0 ≠ 0) (h8 : field.getD 8 0 = 0x20) :
    get_dir_entry_name field = before_space_or_nul (name_base field) ∧
    (field.getD 0 0 ≠ 0x05 → (∀ b ∈ field.take 8, b ≠ 0) →
      get_dir_entry_name field = base_before_space field) ∧
    get_dir_entry_name (bytesOf "FOO        ") = bytesOf "FOO" := by
  have hh : (name_ext field).head? = some 0x20 := by
    rw [name_ext_head field hlen, h8]
  have h1 : get_dir_entry_name field = before_space_or_nul (name_base field) := by
    rw [get_dir_entry_name_eq field hlen h0, if_pos hh]
  refine ⟨h1, ?_, by decide⟩
  intro h5 hnul
  rw [h1, name_base_of_ne field h5, before_space_or_nul_of_no_nul _ hnul]
  rfl

/-- Witness of C12 at the field `FOO` padded with spaces. -/
theorem C12_name_without_extension_witness :
    ((bytesOf "FOO        ").length = 11 ∧ (bytesOf "FOO        ").getD 0 0 ≠ 0 ∧
      (bytesOf "FOO        ").getD 8 0 = 0x20) ∧
    get_dir_entry_name (bytesOf "FOO        ") =
      before_space_or_nul (name_base (bytesOf "FOO        ")) :=
  ⟨by decide,
    (C12_name_without_extension (bytesOf "FOO        ") (by decide) (by decide) (by decide)).1⟩

/-- C13: for an 11-byte name field whose byte 0 is `0x05`, `get_dir_entry_name`
returns the same string as for the field with byte 0 replaced by `0xE5`; the
result is not empty and its first byte is `0xE5`. -/
theorem C13_sentinel_first_byte (field : List Nat) (hlen : field.length = 11)
    (h5 : field.getD 0 0 = 0x05) :
    get_dir_entry_name field = get_dir_entry_name (field.set 0 0xE5) ∧
    get_dir_entry_name field ≠ [] ∧
    (get_dir_entry_name field).head? = some 0xE5 := by
  have hb : name_base field = 0xE5 :: (field.take 8).drop 1 := by
    rw [name_base_cons field hlen, if_pos h5]
  have hbs : before_space_or_nul (name_base field) =
      0xE5 :: before_space_or_nul ((field.take 8).drop 1) := by
    rw [hb]
    simp [before_space_or_nul]
  have hhead : (get_dir_entry_name field).head? = some 0xE5 := by
    rw [get_dir_entry_name_eq field hlen (by rw [h5]; decide), hbs]
    split
    · rfl
    · split
      · rw [hb]
        rfl
      · rfl
  refine ⟨?_, ?_, hhead⟩
  · obtain ⟨a0, a1, a2, a3, a4, a5, a6, a7, e0, e1, e2, rfl⟩ := exists_of_length_eleven field hlen
    have ha : a0 = 0x05 := h5
    subst ha
    rfl
  · intro h
    rw [h] at hhead
    exact absurd hhead (by simp)

/-- Witness of C13 at the field `05 "XYZ    TXT"`. -/
theorem C13_sentinel_first_byte_witness :
    ((0x05 :: bytesOf "XYZ    TXT").length = 11 ∧ (0x05 :: bytesOf "XYZ    TXT").getD 0 0 = 0x05) ∧
    get_dir_entry_name (0x05 :: bytesOf "XYZ    TXT") =
      get_dir_entry_name ((0x05 :: bytesOf "XYZ    TXT").set 0 0xE5) ∧
    get_dir_entry_name (0x05 :: bytesOf "XYZ    TXT") ≠ [] ∧
    (get_dir_entry_name (0x05 :: bytesOf "XYZ    TXT")).head? = some 0xE5 :=
  ⟨by decide, C13_sentinel_first_byte (0x05 :: bytesOf "XYZ    TXT") (by decide) (by decide)⟩

/-- C18 (as stated, refuted): the field `05 "OO     TXT"` has no NUL byte and a
space among bytes 0..7, and the result is `0xE5 "OO.TXT"`, whereas the trimmed
base, a dot and the trimmed extension give `05 "OO.TXT"`. -/
theorem C18_counterexample_sentinel :
    (∀ b ∈ 0x05 :: bytesOf "OO     TXT", b ≠ 0) ∧
    0x20 ∈ (0x05 :: bytesOf "OO     TXT").take 8 ∧
    get_dir_entry_name (0x05 :: bytesOf "OO     TXT") = 0xE5 :: bytesOf "OO.TXT" ∧
    trimmed_name (0x05 :: bytesOf "OO     TXT") = 0x05 :: bytesOf "OO.TXT" ∧
    get_dir_entry_name (0x05 :: bytesOf "OO     TXT") ≠
      trimmed_name (0x05 :: bytesOf "OO     TXT") := by
  decide

/-- C18 (amended): for an 11-byte name field with no NUL byte and at least one
space among bytes 0..7, `get_dir_entry_name` returns the 8.3 name: the trimmed
base alone, or the trimmed base, a dot and the trimmed extension when byte 8
is not a space, each half cut at its own first space and byte 0 read as `0xE5`
when it is `0x05`; when byte 0 is not `0x05` this is exactly the trimmed name
of the raw bytes. -/
theorem C18_name_of_short_base (field : List Nat) (hlen : field.length = 11)
    (hnul : ∀ b ∈ field, b ≠ 0) (hsp : 0x20 ∈ field.take 8) :
    get_dir_entry_name field = name_8_3 field ∧
    get_dir_entry_name field =
      (if field.getD 8 0 = 0x20 then (name_base field).takeWhile (fun b => b ≠ 0x20)
        else (name_base field).takeWhile (fun b => b ≠ 0x20) ++ [0x2E] ++ ext_before_space field) ∧
    (field.getD 0 0 ≠ 0x05 → get_dir_entry_name field = trimmed_name field) := by
  have h0 : field.getD 0 0 ≠ 0 := by
    apply hnul
    obtain ⟨a0, a1, a2, a3, a4, a5, a6, a7, e0, e1, e2, rfl⟩ := exists_of_length_eleven field hlen
    exact List.mem_cons_self _ _
  have hdirty := no_space_or_nul_false_of_mem _ (mem_name_base_of_mem field hlen hsp)
  have hB := before_space_or_nul_of_no_nul _ (no_nul_name_base field hlen hnul)
  have hE : before_space_or_nul (name_ext field) = ext_before_space field :=
    before_space_or_nul_of_no_nul _ (no_nul_name_ext field hnul)
  have hmain : get_dir_entry_name field =
      (if field.getD 8 0 = 0x20 then (name_base field).takeWhile (fun b => b ≠ 0x20)
        else (name_base field).takeWhile (fun b => b ≠ 0x20) ++ [0x2E]
          ++ ext_before_space field) := by
    rw [get_dir_entry_name_eq field hlen h0, hdirty, name_ext_head field hlen, hB, hE]
    simp only [Option.some.injEq, Bool.false_eq_true, if_false]
  refine ⟨?_, hmain, ?_⟩
  · rw [hmain]
    unfold name_8_3
    simp only []
    rw [← name_base_cons field hlen]
    have hiff : ((field.drop 8).take 3).takeWhile (fun b => b ≠ 0x20) = [] ↔
        field.getD 8 0 = 0x20 := by
      have := takeWhile_eq_nil_iff_head (name_ext field) (name_ext_ne_nil field hlen)
      rw [name_ext_head field hlen, Option.some.injEq] at this
      exact this
    by_cases h8 : field.getD 8 0 = 0x20
    · rw [if_pos h8, if_pos (hiff.mpr h8)]
    · rw [if_neg h8, if_neg (fun h => h8 (hiff.mp h))]
      rfl
  · intro h5
    rw [hmain, name_base_of_ne field h5]
    rfl

/-- Witness of C18 at the field `BAR     TXT`. -/
theorem C18_name_of_short_base_witness :
    ((bytesOf "BAR     TXT").length = 11 ∧ (∀ b ∈ bytesOf "BAR     TXT", b ≠ 0) ∧
      0x20 ∈ (bytesOf "BAR     TXT").take 8) ∧
    get_dir_entry_name (bytesOf "BAR     TXT") = name_8_3 (bytesOf "BAR     TXT") :=
  ⟨by decide,
    (C18_name_of_short_base (bytesOf "BAR     TXT") (by decide) (by decide) (by decide)).1⟩

/-- C20: for every 11-byte name field, the string returned by
`get_dir_entry_name` contains no space character. -/
theorem C20_name_has_no_space (field : List Nat) (hlen : field.length = 11) :
    0x20 ∉ get_dir_entry_name field := by
  by_cases h0 : field.getD 0 0 = 0
  · rw [get_dir_entry_name_eq_buffer, if_pos h0]
    exact List.not_mem_nil _
  · rw [get_dir_entry_name_eq field hlen h0]
    have hB := (not_mem_before_space_or_nul (name_base field)).1
    have hE := (not_mem_before_space_or_nul (name_ext field)).1
    split
    · exact hB
    · intro hm
      rcases List.mem_append.mp hm with hm1 | hm1
      · rcases List.mem_append.mp hm1 with hm2 | hm2
        · split at hm2
          · rename_i hc
            rcases List.mem_append.mp hm2 with hm3 | hm3
            · exact not_mem_of_no_space_or_nul _ hc hm3
            · exact hE hm3
          · exact hB hm2
        · simp at hm2
      · exact hE hm1

/-- Witness of C20 at the field `FILENAMETXT`. -/
theorem C20_name_has_no_space_witness :
    (bytesOf "FILENAMETXT").length = 11 ∧ 0x20 ∉ get_dir_entry_name (bytesOf "FILENAMETXT") :=
  ⟨by decide, C20_name_has_no_space (bytesOf "FILENAMETXT") (by decide)⟩

end FatReader
